import Mathlib

/-!
Shallow embedding of the inventory ledger and reservation engine of the
Cloud-Native E-commerce Microservice Platform (the `InventoryService`
class of the inventory service).

The DynamoDB document store is modelled as three lists (the `inventory`,
`reservations` and `stockMovements` tables) held in a `State` record.
DynamoDB `get` becomes `List.find?` on the key, `update ... SET` becomes a
`List.map` that rewrites the record whose key matches with the values that
the source computed before issuing the update, `put` becomes an append,
and the conditional put of `initializeInventory`
(`ConditionExpression: attribute_not_exists(productId)`) becomes a
key-presence test fused with the insert, which is exactly the atomic
insert-if-absent the source requests from the store.

`uuidv4()` identifiers are modelled by a counter `nextId` threaded through
the state: the only property the source relies on is freshness.
`Date.now()` is passed in explicitly as `now`. A thrown `Error` becomes
`Except.error` carrying the source's message string; every operation
returns the store state next to its `Except` result, and an error leaves
the store untouched, exactly as in the source where every throw happens
before the first write of the operation.
-/

namespace Inventory

/-- Reservation lifecycle states, the string constants of the source. -/
inductive RStatus where
  | ACTIVE
  | CONFIRMED
  | CANCELLED
deriving DecidableEq, Repr

/-- One row of the inventory table, the item shape built by
`initializeInventory`. Stock counters are JS numbers used as integers, so
they are `Int` here; nothing in the source clamps them. -/
structure InventoryRecord where
  productId : String
  sku : String
  availableStock : Int
  reservedStock : Int
  totalStock : Int
  location : String
  lowStockThreshold : Int
  reorderPoint : Int
  reorderQuantity : Int
  lastRestocked : Nat
  createdAt : Nat
  updatedAt : Nat
deriving DecidableEq, Repr

/-- One row of the reservations table, as built by `reserveStock`. -/
structure Reservation where
  reservationId : Nat
  productId : String
  orderId : String
  quantity : Int
  status : RStatus
  createdAt : Nat
  expiresAt : Nat
deriving DecidableEq, Repr

/-- One row of the stock-movements table, as built by `logStockMovement`. -/
structure StockMovement where
  movementId : Nat
  productId : String
  type : String
  quantity : Int
  reference : String
  timestamp : Nat
deriving DecidableEq, Repr

/-- The three DynamoDB tables plus the id source. -/
structure State where
  inventory : List InventoryRecord
  reservations : List Reservation
  stockMovements : List StockMovement
  nextId : Nat
deriving Repr

/-- The empty store. -/
def initialState : State := ⟨[], [], [], 0⟩

/-- `getInventory(productId)`: `docClient.get` on the inventory table. -/
def getInventory (s : State) (productId : String) : Option InventoryRecord :=
  s.inventory.find? (fun r => r.productId == productId)

/-- The `docClient.get` on the reservations table used by
`confirmReservation` and `cancelReservation`. -/
def getReservation (s : State) (reservationId : Nat) : Option Reservation :=
  s.reservations.find? (fun r => r.reservationId == reservationId)

/-- `logStockMovement({productId, type, quantity, reference})`: builds the
movement row with a fresh id and current timestamp and `put`s it. -/
def logStockMovement (s : State) (now : Nat) (productId type : String)
    (quantity : Int) (reference : String) : StockMovement × State :=
  let movement : StockMovement :=
    { movementId := s.nextId, productId := productId, type := type,
      quantity := quantity, reference := reference, timestamp := now }
  (movement,
   { s with stockMovements := s.stockMovements ++ [movement], nextId := s.nextId + 1 })

/-- `initializeInventory(productId, sku, initialStock, location)`: builds
the item, `put`s it under `ConditionExpression:
attribute_not_exists(productId)` (throwing `Inventory already exists for
this product` on `ConditionalCheckFailedException`), then logs an INITIAL
movement and returns the item. -/
def initializeInventory (s : State) (now : Nat) (productId sku : String)
    (initialStock : Int) (location : String := "default") :
    Except String InventoryRecord × State :=
  let item : InventoryRecord :=
    { productId := productId, sku := sku, availableStock := initialStock,
      reservedStock := 0, totalStock := initialStock, location := location,
      lowStockThreshold := 10, reorderPoint := 20, reorderQuantity := 50,
      lastRestocked := now, createdAt := now, updatedAt := now }
  if (getInventory s productId).isSome then
    (.error "Inventory already exists for this product", s)
  else
    let s1 : State := { s with inventory := s.inventory ++ [item] }
    let s2 := (logStockMovement s1 now productId "INITIAL" initialStock
      "System initialization").2
    (.ok item, s2)

/-- `updateStock(productId, quantity, type, reference)`: read the current
record, throw `Inventory not found for this product` if absent, compute
the new counters, throw `Insufficient stock for this operation` when the
new available stock would be negative, otherwise `update ... SET` the
counters, log a movement, and return the updated record (`ALL_NEW`). -/
def updateStock (s : State) (now : Nat) (productId : String) (quantity : Int)
    (type : String := "ADJUSTMENT") (reference : String := "") :
    Except String InventoryRecord × State :=
  match getInventory s productId with
  | none => (.error "Inventory not found for this product", s)
  | some currentInventory =>
    let newAvailableStock := currentInventory.availableStock + quantity
    let newTotalStock := currentInventory.totalStock + quantity
    if newAvailableStock < 0 then
      (.error "Insufficient stock for this operation", s)
    else
      let s1 : State :=
        { s with inventory := s.inventory.map (fun r =>
            if r.productId == productId then
              { r with availableStock := newAvailableStock,
                       totalStock := newTotalStock, updatedAt := now }
            else r) }
      let s2 := (logStockMovement s1 now productId type quantity reference).2
      (.ok { currentInventory with
          availableStock := newAvailableStock,
          totalStock := newTotalStock,
          updatedAt := now }, s2)

/-- `reserveStock(productId, quantity, orderId, expirationMinutes = 15)`:
read the record and throw the single error `Insufficient stock available`
when the record is absent or `availableStock < quantity`
(`if (!inventory || inventory.availableStock < quantity)` in the source);
otherwise move `quantity` from available to reserved with an
`update ... SET`, `put` a fresh ACTIVE reservation expiring at
`now + expirationMinutes * 60 * 1000`, and return it. No movement is
logged. -/
def reserveStock (s : State) (now : Nat) (productId : String) (quantity : Int)
    (orderId : String) (expirationMinutes : Nat := 15) :
    Except String Reservation × State :=
  let expiresAt := now + expirationMinutes * 60 * 1000
  match getInventory s productId with
  | none => (.error "Insufficient stock available", s)
  | some inventory =>
    if inventory.availableStock < quantity then
      (.error "Insufficient stock available", s)
    else
      let newAvailableStock := inventory.availableStock - quantity
      let newReservedStock := inventory.reservedStock + quantity
      let s1 : State :=
        { s with inventory := s.inventory.map (fun r =>
            if r.productId == productId then
              { r with availableStock := newAvailableStock,
                       reservedStock := newReservedStock, updatedAt := now }
            else r) }
      let reservation : Reservation :=
        { reservationId := s1.nextId, productId := productId, orderId := orderId,
          quantity := quantity, status := .ACTIVE, createdAt := now,
          expiresAt := expiresAt }
      let s2 : State :=
        { s1 with reservations := s1.reservations ++ [reservation],
                  nextId := s1.nextId + 1 }
      (.ok reservation, s2)

/-- The value `confirmReservation` returns on success:
`{ success: true, reservation }` where `reservation` is the row as read
before the status update. -/
structure ConfirmResult where
  success : Bool
  reservation : Reservation
deriving DecidableEq, Repr

/-- `confirmReservation(reservationId)`: load the reservation (throw
`Reservation not found` if absent, `Reservation is not active` unless
ACTIVE), load the inventory (the source dereferences it unchecked, so a
missing record is a thrown TypeError), move `quantity` out of reserved and
total, mark the reservation CONFIRMED, log a SALE movement of
`-quantity` referencing the order, and return the pre-update row. -/
def confirmReservation (s : State) (now : Nat) (reservationId : Nat) :
    Except String ConfirmResult × State :=
  match getReservation s reservationId with
  | none => (.error "Reservation not found", s)
  | some reservation =>
    if reservation.status ≠ RStatus.ACTIVE then
      (.error "Reservation is not active", s)
    else
      match getInventory s reservation.productId with
      | none => (.error "TypeError: cannot read properties of undefined", s)
      | some inventory =>
        let newReservedStock := inventory.reservedStock - reservation.quantity
        let newTotalStock := inventory.totalStock - reservation.quantity
        let s1 : State :=
          { s with inventory := s.inventory.map (fun r =>
              if r.productId == reservation.productId then
                { r with reservedStock := newReservedStock,
                         totalStock := newTotalStock, updatedAt := now }
              else r) }
        let s2 : State :=
          { s1 with reservations := s1.reservations.map (fun r =>
              if r.reservationId == reservationId then
                { r with status := RStatus.CONFIRMED }
              else r) }
        let s3 := (logStockMovement s2 now reservation.productId "SALE"
          (-reservation.quantity) ("Order: " ++ reservation.orderId)).2
        (.ok { success := true, reservation := reservation }, s3)

/-- The value `cancelReservation` returns on success: either
`{ success: true, message: 'Reservation already processed' }` (no-op
branch) or `{ success: true, reservation }` with the row as read before
the status update. -/
structure CancelResult where
  success : Bool
  message : Option String
  reservation : Option Reservation
deriving DecidableEq, Repr

/-- `cancelReservation(reservationId)`: load the reservation (throw
`Reservation not found` if absent); when it is not ACTIVE return the
already-processed no-op without touching the store; otherwise move
`quantity` back from reserved to available, mark the reservation
CANCELLED, and return the pre-update row. No movement is logged. -/
def cancelReservation (s : State) (now : Nat) (reservationId : Nat) :
    Except String CancelResult × State :=
  match getReservation s reservationId with
  | none => (.error "Reservation not found", s)
  | some reservation =>
    if reservation.status ≠ RStatus.ACTIVE then
      (.ok { success := true, message := some "Reservation already processed",
             reservation := none }, s)
    else
      match getInventory s reservation.productId with
      | none => (.error "TypeError: cannot read properties of undefined", s)
      | some inventory =>
        let newAvailableStock := inventory.availableStock + reservation.quantity
        let newReservedStock := inventory.reservedStock - reservation.quantity
        let s1 : State :=
          { s with inventory := s.inventory.map (fun r =>
              if r.productId == reservation.productId then
                { r with availableStock := newAvailableStock,
                         reservedStock := newReservedStock, updatedAt := now }
              else r) }
        let s2 : State :=
          { s1 with reservations := s1.reservations.map (fun r =>
              if r.reservationId == reservationId then
                { r with status := RStatus.CANCELLED }
              else r) }
        (.ok { success := true, message := none,
               reservation := some reservation }, s2)

/-- `cleanupExpiredReservations()`: scan for reservations with
`status = ACTIVE AND expiresAt < now`, cancel each one inside a
try/catch (an error leaves the store as it was and the loop continues),
and report `{ cleaned: result.Items.length }` — the length of the scan
result, counted before the loop runs. `expiredActive` is the scan's
`FilterExpression: #status = :status AND expiresAt < :now`. -/
def expiredActive (s : State) (now : Nat) : List Reservation :=
  s.reservations.filter
    (fun r => r.status == RStatus.ACTIVE && decide (r.expiresAt < now))

def cleanupExpiredReservations (s : State) (now : Nat) : Nat × State :=
  let expired := expiredActive s now
  let s1 := expired.foldl
    (fun st r => (cancelReservation st now r.reservationId).2) s
  (expired.length, s1)

/-- Sum of the `quantity` fields of the movements logged for a product:
what an auditor reading the movement table reconstructs. -/
def movementSum (moves : List StockMovement) (productId : String) : Int :=
  ((moves.filter (fun m => m.productId == productId)).map (fun m => m.quantity)).sum

/-- Sum of the quantities of the ACTIVE reservations of a product. -/
def activeSum (l : List Reservation) (productId : String) : Int :=
  ((l.filter (fun r => r.status == RStatus.ACTIVE && r.productId == productId)).map
    (fun r => r.quantity)).sum

/-- Sum of the quantities of the ACTIVE and CONFIRMED reservations of a
product (the quantity the no-oversell property bounds by `totalStock`). -/
def activeConfirmedSum (l : List Reservation) (productId : String) : Int :=
  ((l.filter (fun r =>
      (r.status == RStatus.ACTIVE || r.status == RStatus.CONFIRMED) &&
      r.productId == productId)).map (fun r => r.quantity)).sum

/-- Sum of the quantities of a reservation list restricted to a product,
used to describe what one reclaim sweep gives back to `availableStock`. -/
def sumFor (l : List Reservation) (productId : String) : Int :=
  ((l.filter (fun r => r.productId == productId)).map (fun r => r.quantity)).sum

/-- The write half of `reserveStock`: everything the source does after its
`docClient.get` round-trip, parameterised by the record that the `get`
returned. `reserveStock` is literally the read followed by this write
(`reserveStock_eq_read_then_write` below), and two concurrent `reserve`
calls interleave at the storage-call boundary: each performs its own read
before either write lands, and each write stores counters computed from
its own, possibly stale, read. -/
def reserveWrite (s : State) (now : Nat) (inventory : InventoryRecord)
    (productId : String) (quantity : Int) (orderId : String)
    (expirationMinutes : Nat := 15) : Except String Reservation × State :=
  let expiresAt := now + expirationMinutes * 60 * 1000
  if inventory.availableStock < quantity then
    (.error "Insufficient stock available", s)
  else
    let newAvailableStock := inventory.availableStock - quantity
    let newReservedStock := inventory.reservedStock + quantity
    let s1 : State :=
      { s with inventory := s.inventory.map (fun r =>
          if r.productId == productId then
            { r with availableStock := newAvailableStock,
                     reservedStock := newReservedStock, updatedAt := now }
          else r) }
    let reservation : Reservation :=
      { reservationId := s1.nextId, productId := productId, orderId := orderId,
        quantity := quantity, status := .ACTIVE, createdAt := now,
        expiresAt := expiresAt }
    let s2 : State :=
      { s1 with reservations := s1.reservations ++ [reservation],
                nextId := s1.nextId + 1 }
    (.ok reservation, s2)

/-- One successful call of the service, as the claims' operation mix reads:
`initializeInventory` with non-negative initial stock, then `updateStock`,
`reserveStock` with positive quantity, `confirmReservation` or
`cancelReservation`. -/
inductive Step : State → State → Prop where
  | init (s : State) (now : Nat) (pid sku : String) (stock : Int) (loc : String)
      (item : InventoryRecord) (s' : State) (hstock : 0 ≤ stock)
      (h : initializeInventory s now pid sku stock loc = (.ok item, s')) :
      Step s s'
  | update (s : State) (now : Nat) (pid : String) (q : Int) (ty ref : String)
      (rec : InventoryRecord) (s' : State) (hq : 0 < q)
      (h : updateStock s now pid q ty ref = (.ok rec, s')) : Step s s'
  | reserve (s : State) (now : Nat) (pid : String) (q : Int) (oid : String)
      (m : Nat) (r : Reservation) (s' : State) (hq : 0 < q)
      (h : reserveStock s now pid q oid m = (.ok r, s')) : Step s s'
  | confirm (s : State) (now : Nat) (rid : Nat) (res : ConfirmResult) (s' : State)
      (h : confirmReservation s now rid = (.ok res, s')) : Step s s'
  | cancel (s : State) (now : Nat) (rid : Nat) (res : CancelResult) (s' : State)
      (h : cancelReservation s now rid = (.ok res, s')) : Step s s'

/-- States reachable from the empty store by successful operations. -/
def Reachable (s : State) : Prop :=
  Relation.ReflTransGen Step initialState s

/-- The invariants the store keeps through every successful operation. -/
structure WF (s : State) : Prop where
  invPid : (s.inventory.map (fun r => r.productId)).Nodup
  resId : (s.reservations.map (fun r => r.reservationId)).Nodup
  ridLt : ∀ r ∈ s.reservations, r.reservationId < s.nextId
  resInv : ∀ r ∈ s.reservations, (getInventory s r.productId).isSome = true
  moveInv : ∀ m ∈ s.stockMovements, (getInventory s m.productId).isSome = true
  activePos : ∀ r ∈ s.reservations, r.status = RStatus.ACTIVE → 0 < r.quantity
  availNonneg : ∀ v ∈ s.inventory, 0 ≤ v.availableStock
  reservedEq : ∀ v ∈ s.inventory, v.reservedStock = activeSum s.reservations v.productId
  conserve : ∀ v ∈ s.inventory, v.availableStock + v.reservedStock = v.totalStock
  moveSum : ∀ v ∈ s.inventory, movementSum s.stockMovements v.productId = v.totalStock

/-- What one reclaim sweep leaves in the store when it starts from `st` and
cancels the snapshot `l`: every reservation of `l` whose product has a
record is CANCELLED, and each product's counters move by the total
quantity of its reservations in `l`. `cleanup_loop_spec` proves the sweep
loop equal to this. -/
def markCancelled (st : State) (l : List Reservation) (now : Nat) : State :=
  { st with
    reservations := st.reservations.map (fun x =>
      if l.any (fun r => r.reservationId == x.reservationId) &&
          (getInventory st x.productId).isSome then
        { x with status := RStatus.CANCELLED }
      else x),
    inventory := st.inventory.map (fun v =>
      if l.any (fun r => r.productId == v.productId) then
        { v with availableStock := v.availableStock + sumFor l v.productId,
                 reservedStock := v.reservedStock - sumFor l v.productId,
                 updatedAt := now }
      else v) }

/-- Scenario A of the spec: a store holding one product initialized with
50 units. -/
def sA : State := (initializeInventory initialState 0 "p1" "SKU1" 50 "WH-A").2

/-- The inventory row of `sA`. -/
def itemA : InventoryRecord :=
  { productId := "p1", sku := "SKU1", availableStock := 50, reservedStock := 0,
    totalStock := 50, location := "WH-A", lowStockThreshold := 10,
    reorderPoint := 20, reorderQuantity := 50, lastRestocked := 0,
    createdAt := 0, updatedAt := 0 }

/-- Scenario B: `sA` after reserving 10 units for `orderA` (reservation
id 1, 15-minute expiry). -/
def sB : State := (reserveStock sA 1 "p1" 10 "orderA" 15).2

/-- Scenario C: `sB` after confirming reservation 1. -/
def sC : State := (confirmReservation sB 2 1).2

/-- `sB` after cancelling reservation 1. -/
def sCancel : State := (cancelReservation sB 2 1).2

/-- `sA` after a reservation of 10 units whose expiry window is zero
minutes: it expires at time 1 and a sweep at time 2 reclaims it. -/
def sExp : State := (reserveStock sA 1 "p1" 10 "orderA" 0).2

/-- A one-unit product used to exhibit the interleaving oversell. -/
def sOne : State := (initializeInventory initialState 0 "p1" "SKU1" 1 "WH-A").2

/-- The stale record both racing `reserve` calls read from `sOne` before
either one writes. -/
def staleOne : InventoryRecord :=
  { productId := "p1", sku := "SKU1", availableStock := 1, reservedStock := 0,
    totalStock := 1, location := "WH-A", lowStockThreshold := 10,
    reorderPoint := 20, reorderQuantity := 50, lastRestocked := 0,
    createdAt := 0, updatedAt := 0 }

/-- The store after the racing schedule: call A reads, call B reads (same
state, both see one available unit), call A writes, call B writes. -/
def sRace : State :=
  (reserveWrite (reserveWrite sOne 1 staleOne "p1" 1 "orderA" 15).2
    2 staleOne "p1" 1 "orderB" 15).2

/-- A store (not reachable; constructed directly) whose first expired
reservation points at a product with no inventory record, so cancelling it
throws: it exhibits that the sweep keeps going after a failure. -/
def sFail : State :=
  { inventory := [itemA],
    reservations :=
      [⟨5, "ghost", "orderG", 3, RStatus.ACTIVE, 0, 1⟩,
       ⟨6, "p1", "orderA", 10, RStatus.ACTIVE, 0, 1⟩],
    stockMovements := [],
    nextId := 7 }

example :
    (initializeInventory initialState 0 "p1" "SKU1" 50 "WH-A").1 =
      .ok { productId := "p1", sku := "SKU1", availableStock := 50,
            reservedStock := 0, totalStock := 50, location := "WH-A",
            lowStockThreshold := 10, reorderPoint := 20, reorderQuantity := 50,
            lastRestocked := 0, createdAt := 0, updatedAt := 0 } := by rfl

/-! ### Lookup infrastructure -/

theorem find?_key_eq_of_mem {α κ : Type} [BEq κ] [LawfulBEq κ] (key : α → κ)
    {l : List α} (hU : (l.map key).Nodup) {v : α} (hv : v ∈ l) :
    l.find? (fun r => key r == key v) = some v := by
  induction l with
  | nil => cases hv
  | cons a t ih =>
    have hU' : (key a ∉ t.map key) ∧ (t.map key).Nodup := by
      simpa [List.nodup_cons] using hU
    rcases List.mem_cons.mp hv with h | h
    · subst h
      exact List.find?_cons_of_pos _ (by simp)
    · have hne : (key a == key v) = false := by
        rw [beq_eq_false_iff_ne]
        intro he
        exact hU'.1 (he ▸ List.mem_map_of_mem key h)
      rw [List.find?_cons_of_neg _ (by simp [hne])]
      exact ih hU'.2 h

theorem find?_key_map {α κ : Type} [BEq κ] (key : α → κ) (f : α → α)
    (hf : ∀ r, key (f r) = key r) (l : List α) (k : κ) :
    (l.map f).find? (fun r => key r == k) =
      (l.find? (fun r => key r == k)).map f := by
  have hp : ((fun r => key r == k) ∘ f) = (fun r => key r == k) := by
    funext r
    simp [Function.comp, hf]
  rw [List.find?_map, hp]

theorem find?_key_append {α κ : Type} [BEq κ] (key : α → κ) (l₁ l₂ : List α)
    (k : κ) :
    (l₁ ++ l₂).find? (fun r => key r == k) =
      ((l₁.find? (fun r => key r == k)).or (l₂.find? (fun r => key r == k))) :=
  List.find?_append

/-- `getInventory` on a state whose inventory was rewritten by a
productId-preserving map. -/
theorem getInventory_map {inv : List InventoryRecord} {rs : List Reservation}
    {ms : List StockMovement} {n : Nat} (f : InventoryRecord → InventoryRecord)
    (hf : ∀ r, (f r).productId = r.productId) (pid : String) :
    getInventory ⟨inv.map f, rs, ms, n⟩ pid =
      (getInventory ⟨inv, rs, ms, n⟩ pid).map f := by
  unfold getInventory
  exact find?_key_map (fun r => r.productId) f hf inv pid

/-- `getReservation` on a state whose reservations were rewritten by a
reservationId-preserving map. -/
theorem getReservation_map {inv : List InventoryRecord} {rs : List Reservation}
    {ms : List StockMovement} {n : Nat} (f : Reservation → Reservation)
    (hf : ∀ r, (f r).reservationId = r.reservationId) (rid : Nat) :
    getReservation ⟨inv, rs.map f, ms, n⟩ rid =
      (getReservation ⟨inv, rs, ms, n⟩ rid).map f := by
  unfold getReservation
  exact find?_key_map (fun r => r.reservationId) f hf rs rid

theorem getInventory_mem {s : State} {pid : String} {v : InventoryRecord}
    (h : getInventory s pid = some v) : v ∈ s.inventory ∧ v.productId = pid := by
  refine ⟨List.mem_of_find?_eq_some h, ?_⟩
  have := List.find?_some h
  simpa using this

theorem getReservation_mem {s : State} {rid : Nat} {r : Reservation}
    (h : getReservation s rid = some r) :
    r ∈ s.reservations ∧ r.reservationId = rid := by
  refine ⟨List.mem_of_find?_eq_some h, ?_⟩
  have := List.find?_some h
  simpa using this

/-- With distinct productIds, the record found for a member's key is that
member. -/
theorem getInventory_of_mem {s : State}
    (hU : (s.inventory.map (fun r => r.productId)).Nodup)
    {v : InventoryRecord} (hv : v ∈ s.inventory) :
    getInventory s v.productId = some v := by
  unfold getInventory
  exact find?_key_eq_of_mem (fun r => r.productId) hU hv

/-- With distinct reservationIds, the reservation found for a member's key
is that member. -/
theorem getReservation_of_mem {s : State}
    (hU : (s.reservations.map (fun r => r.reservationId)).Nodup)
    {r : Reservation} (hr : r ∈ s.reservations) :
    getReservation s r.reservationId = some r := by
  unfold getReservation
  exact find?_key_eq_of_mem (fun r => r.reservationId) hU hr

/-! ### Sum infrastructure -/

theorem movementSum_append (ms : List StockMovement) (m : StockMovement)
    (pid : String) :
    movementSum (ms ++ [m]) pid =
      movementSum ms pid + (if m.productId == pid then m.quantity else 0) := by
  by_cases h : m.productId == pid <;>
    simp [movementSum, List.filter_append, h]

theorem movementSum_eq_zero {ms : List StockMovement} {pid : String}
    (h : ∀ m ∈ ms, m.productId ≠ pid) : movementSum ms pid = 0 := by
  have : ms.filter (fun m => m.productId == pid) = [] :=
    List.filter_eq_nil_iff.mpr (fun m hm => by simp [h m hm])
  simp [movementSum, this]

theorem activeSum_append (l : List Reservation) (r : Reservation) (pid : String) :
    activeSum (l ++ [r]) pid =
      activeSum l pid +
        (if r.status == RStatus.ACTIVE && r.productId == pid then r.quantity
         else 0) := by
  by_cases h : r.status == RStatus.ACTIVE && r.productId == pid <;>
    simp [activeSum, List.filter_append, h]

theorem activeSum_eq_zero {l : List Reservation} {pid : String}
    (h : ∀ r ∈ l, r.productId ≠ pid) : activeSum l pid = 0 := by
  have : l.filter
      (fun r => r.status == RStatus.ACTIVE && r.productId == pid) = [] :=
    List.filter_eq_nil_iff.mpr (fun r hr => by simp [h r hr])
  simp [activeSum, this]

theorem activeSum_nonneg {l : List Reservation} (pid : String)
    (h : ∀ r ∈ l, r.status = RStatus.ACTIVE → 0 < r.quantity) :
    0 ≤ activeSum l pid := by
  apply List.sum_nonneg
  intro x hx
  rcases List.mem_map.mp hx with ⟨r, hr, rfl⟩
  have hmem := List.mem_filter.mp hr
  have hA : r.status = RStatus.ACTIVE := by
    have := hmem.2
    simp only [Bool.and_eq_true, beq_iff_eq] at this
    exact this.1
  exact le_of_lt (h r hmem.1 hA)

/-! ### Operation characterizations: each branch of each operation, with the
store it leaves behind spelled out. -/

theorem initializeInventory_absent {s : State} {now : Nat} {pid sku : String}
    {stock : Int} {loc : String} (h : getInventory s pid = none) :
    initializeInventory s now pid sku stock loc =
      (.ok ⟨pid, sku, stock, 0, stock, loc, 10, 20, 50, now, now, now⟩,
       { inventory :=
           s.inventory ++ [⟨pid, sku, stock, 0, stock, loc, 10, 20, 50, now, now, now⟩],
         reservations := s.reservations,
         stockMovements :=
           s.stockMovements ++ [⟨s.nextId, pid, "INITIAL", stock, "System initialization", now⟩],
         nextId := s.nextId + 1 }) := by
  unfold initializeInventory logStockMovement
  simp [h]

theorem initializeInventory_present {s : State} {now : Nat} {pid sku : String}
    {stock : Int} {loc : String} {inv : InventoryRecord}
    (h : getInventory s pid = some inv) :
    initializeInventory s now pid sku stock loc =
      (.error "Inventory already exists for this product", s) := by
  unfold initializeInventory
  simp [h]

theorem updateStock_ok {s : State} {now : Nat} {pid : String} {q : Int}
    {ty ref : String} {inv : InventoryRecord}
    (h : getInventory s pid = some inv) (hq : ¬ inv.availableStock + q < 0) :
    updateStock s now pid q ty ref =
      (.ok { inv with availableStock := inv.availableStock + q,
                      totalStock := inv.totalStock + q, updatedAt := now },
       { inventory := s.inventory.map (fun r =>
           if r.productId == pid then
             { r with availableStock := inv.availableStock + q,
                      totalStock := inv.totalStock + q, updatedAt := now }
           else r),
         reservations := s.reservations,
         stockMovements := s.stockMovements ++ [⟨s.nextId, pid, ty, q, ref, now⟩],
         nextId := s.nextId + 1 }) := by
  unfold updateStock logStockMovement
  simp [h, hq]

theorem updateStock_err_none {s : State} {now : Nat} {pid : String} {q : Int}
    {ty ref : String} (h : getInventory s pid = none) :
    updateStock s now pid q ty ref =
      (.error "Inventory not found for this product", s) := by
  unfold updateStock
  simp [h]

theorem updateStock_err_neg {s : State} {now : Nat} {pid : String} {q : Int}
    {ty ref : String} {inv : InventoryRecord}
    (h : getInventory s pid = some inv) (hq : inv.availableStock + q < 0) :
    updateStock s now pid q ty ref =
      (.error "Insufficient stock for this operation", s) := by
  unfold updateStock
  simp [h, hq]

theorem reserveStock_ok {s : State} {now : Nat} {pid : String} {q : Int}
    {oid : String} {m : Nat} {inv : InventoryRecord}
    (h : getInventory s pid = some inv) (hq : ¬ inv.availableStock < q) :
    reserveStock s now pid q oid m =
      (.ok ⟨s.nextId, pid, oid, q, .ACTIVE, now, now + m * 60 * 1000⟩,
       { inventory := s.inventory.map (fun r =>
           if r.productId == pid then
             { r with availableStock := inv.availableStock - q,
                      reservedStock := inv.reservedStock + q, updatedAt := now }
           else r),
         reservations :=
           s.reservations ++ [⟨s.nextId, pid, oid, q, .ACTIVE, now, now + m * 60 * 1000⟩],
         stockMovements := s.stockMovements,
         nextId := s.nextId + 1 }) := by
  unfold reserveStock
  simp [h, hq]

theorem reserveStock_err_absent {s : State} {now : Nat} {pid : String} {q : Int}
    {oid : String} {m : Nat} (h : getInventory s pid = none) :
    reserveStock s now pid q oid m = (.error "Insufficient stock available", s) := by
  unfold reserveStock
  simp [h]

theorem reserveStock_err_short {s : State} {now : Nat} {pid : String} {q : Int}
    {oid : String} {m : Nat} {inv : InventoryRecord}
    (h : getInventory s pid = some inv) (hq : inv.availableStock < q) :
    reserveStock s now pid q oid m = (.error "Insufficient stock available", s) := by
  unfold reserveStock
  simp [h, hq]

theorem confirmReservation_ok {s : State} {now : Nat} {rid : Nat}
    {r : Reservation} {inv : InventoryRecord}
    (hR : getReservation s rid = some r) (hA : r.status = RStatus.ACTIVE)
    (hI : getInventory s r.productId = some inv) :
    confirmReservation s now rid =
      (.ok { success := true, reservation := r },
       { inventory := s.inventory.map (fun x =>
           if x.productId == r.productId then
             { x with reservedStock := inv.reservedStock - r.quantity,
                      totalStock := inv.totalStock - r.quantity, updatedAt := now }
           else x),
         reservations := s.reservations.map (fun x =>
           if x.reservationId == rid then { x with status := RStatus.CONFIRMED }
           else x),
         stockMovements := s.stockMovements ++
           [⟨s.nextId, r.productId, "SALE", -r.quantity, "Order: " ++ r.orderId, now⟩],
         nextId := s.nextId + 1 }) := by
  unfold confirmReservation logStockMovement
  simp [hR, hA, hI]

theorem confirmReservation_err_absent {s : State} {now : Nat} {rid : Nat}
    (hR : getReservation s rid = none) :
    confirmReservation s now rid = (.error "Reservation not found", s) := by
  unfold confirmReservation
  simp [hR]

theorem confirmReservation_err_state {s : State} {now : Nat} {rid : Nat}
    {r : Reservation} (hR : getReservation s rid = some r)
    (hA : r.status ≠ RStatus.ACTIVE) :
    confirmReservation s now rid = (.error "Reservation is not active", s) := by
  unfold confirmReservation
  simp [hR, hA]

theorem confirmReservation_err_noinv {s : State} {now : Nat} {rid : Nat}
    {r : Reservation} (hR : getReservation s rid = some r)
    (hA : r.status = RStatus.ACTIVE)
    (hI : getInventory s r.productId = none) :
    confirmReservation s now rid =
      (.error "TypeError: cannot read properties of undefined", s) := by
  unfold confirmReservation
  simp [hR, hA, hI]

theorem cancelReservation_ok {s : State} {now : Nat} {rid : Nat}
    {r : Reservation} {inv : InventoryRecord}
    (hR : getReservation s rid = some r) (hA : r.status = RStatus.ACTIVE)
    (hI : getInventory s r.productId = some inv) :
    cancelReservation s now rid =
      (.ok { success := true, message := none, reservation := some r },
       { inventory := s.inventory.map (fun x =>
           if x.productId == r.productId then
             { x with availableStock := inv.availableStock + r.quantity,
                      reservedStock := inv.reservedStock - r.quantity, updatedAt := now }
           else x),
         reservations := s.reservations.map (fun x =>
           if x.reservationId == rid then { x with status := RStatus.CANCELLED }
           else x),
         stockMovements := s.stockMovements,
         nextId := s.nextId }) := by
  unfold cancelReservation
  simp [hR, hA, hI]

theorem cancelReservation_err_absent {s : State} {now : Nat} {rid : Nat}
    (hR : getReservation s rid = none) :
    cancelReservation s now rid = (.error "Reservation not found", s) := by
  unfold cancelReservation
  simp [hR]

theorem cancelReservation_noop {s : State} {now : Nat} {rid : Nat}
    {r : Reservation} (hR : getReservation s rid = some r)
    (hA : r.status ≠ RStatus.ACTIVE) :
    cancelReservation s now rid =
      (.ok { success := true, message := some "Reservation already processed",
             reservation := none }, s) := by
  unfold cancelReservation
  simp [hR, hA]

theorem cancelReservation_err_noinv {s : State} {now : Nat} {rid : Nat}
    {r : Reservation} (hR : getReservation s rid = some r)
    (hA : r.status = RStatus.ACTIVE)
    (hI : getInventory s r.productId = none) :
    cancelReservation s now rid =
      (.error "TypeError: cannot read properties of undefined", s) := by
  unfold cancelReservation
  simp [hR, hA, hI]

/-! ### More lookup and sum facts used by the invariant proofs -/

theorem getInventory_none {s : State} {pid : String}
    (h : getInventory s pid = none) : ∀ v ∈ s.inventory, v.productId ≠ pid := by
  intro v hv
  have := List.find?_eq_none.mp h v hv
  simpa using this

theorem mem_eq_of_getInventory {s : State} {pid : String}
    (hU : (s.inventory.map (fun r => r.productId)).Nodup)
    {v inv : InventoryRecord} (hv : v ∈ s.inventory) (hpid : v.productId = pid)
    (h : getInventory s pid = some inv) : v = inv := by
  have hv' := getInventory_of_mem hU hv
  rw [hpid, h] at hv'
  exact (Option.some.inj hv').symm

theorem mem_eq_of_getReservation {s : State} {rid : Nat}
    (hU : (s.reservations.map (fun r => r.reservationId)).Nodup)
    {x r : Reservation} (hx : x ∈ s.reservations) (hrid : x.reservationId = rid)
    (h : getReservation s rid = some r) : x = r := by
  have hx' := getReservation_of_mem hU hx
  rw [hrid, h] at hx'
  exact (Option.some.inj hx').symm

theorem nodup_map_key {α κ : Type} (key : α → κ) (f : α → α)
    (hf : ∀ r, key (f r) = key r) {l : List α} (h : (l.map key).Nodup) :
    ((l.map f).map key).Nodup := by
  rw [List.map_map]
  have hc : (key ∘ f) = key := funext hf
  rw [hc]
  exact h

theorem isSome_or_left {α : Type} {o o' : Option α} (h : o.isSome = true) :
    (o.or o').isSome = true := by
  cases o with
  | none => cases h
  | some a => rfl

theorem getInventory_append {inv : List InventoryRecord} {rs : List Reservation}
    {ms : List StockMovement} {n : Nat} (item : InventoryRecord) (pid : String) :
    getInventory ⟨inv ++ [item], rs, ms, n⟩ pid =
      ((getInventory ⟨inv, rs, ms, n⟩ pid).or
        (if item.productId == pid then some item else none)) := by
  unfold getInventory
  dsimp only
  rw [List.find?_append]
  congr 1
  by_cases hpa : item.productId == pid <;> simp [List.find?, hpa]

theorem activeSum_cons (r : Reservation) (l : List Reservation) (pid : String) :
    activeSum (r :: l) pid =
      (if r.status == RStatus.ACTIVE && r.productId == pid then r.quantity
       else 0) + activeSum l pid := by
  by_cases h : r.status == RStatus.ACTIVE && r.productId == pid <;>
    simp [activeSum, List.filter_cons, h]

/-- Resolving one ACTIVE reservation (to CONFIRMED or CANCELLED) removes
exactly its quantity from the active sum of its product and nothing from
any other product. -/
theorem activeSum_map_resolve {l : List Reservation} {rid : Nat} (st : RStatus)
    (hst : st ≠ RStatus.ACTIVE)
    (hU : (l.map (fun r => r.reservationId)).Nodup)
    {v : Reservation} (hv : v ∈ l) (hrid : v.reservationId = rid)
    (hA : v.status = RStatus.ACTIVE) (pid : String) :
    activeSum
        (l.map (fun r =>
          if r.reservationId == rid then { r with status := st } else r)) pid
      = activeSum l pid - (if v.productId == pid then v.quantity else 0) := by
  induction l with
  | nil => cases hv
  | cons a t ih =>
    have hU' : a.reservationId ∉ t.map (fun r => r.reservationId) ∧
        (t.map (fun r => r.reservationId)).Nodup := by
      simpa [List.nodup_cons] using hU
    rcases List.mem_cons.mp hv with rfl | hvt
    · have htail : t.map (fun r =>
          if r.reservationId == rid then { r with status := st } else r) = t := by
        conv_rhs => rw [← List.map_id t]
        apply List.map_congr_left
        intro x hx
        have hne : x.reservationId ≠ rid := by
          intro he
          exact hU'.1 (hrid ▸ he ▸ List.mem_map_of_mem _ hx)
        simp [hne]
      rw [List.map_cons, htail]
      rw [show (if v.reservationId == rid then { v with status := st } else v) =
          { v with status := st } from by simp [hrid]]
      rw [activeSum_cons, activeSum_cons]
      by_cases hp : v.productId == pid
      · rw [if_neg (by simp [hst]), if_pos (by simp [hA, hp]), if_pos hp]
        ring
      · rw [if_neg (by simp [hst]), if_neg (by simp [hp]),
          if_neg (by simpa using hp)]
        ring
    · have hne : (a.reservationId == rid) = false := by
        rw [beq_eq_false_iff_ne]
        intro he
        exact hU'.1 (he ▸ hrid ▸ List.mem_map_of_mem _ hvt)
      rw [List.map_cons]
      rw [show (if a.reservationId == rid then { a with status := st } else a) = a
        from by simp [hne]]
      rw [activeSum_cons, activeSum_cons, ih hU'.2 hvt]
      ring

/-! ### Preservation of the store invariants -/

theorem getInventory_def (s : State) (pid : String) :
    getInventory s pid = s.inventory.find? (fun x => x.productId == pid) := rfl

theorem getReservation_def (s : State) (rid : Nat) :
    getReservation s rid =
      s.reservations.find? (fun x => x.reservationId == rid) := rfl

theorem find?_pid_map (l : List InventoryRecord)
    (f : InventoryRecord → InventoryRecord)
    (hf : ∀ r, (f r).productId = r.productId) (pid : String) :
    (l.map f).find? (fun r => r.productId == pid) =
      (l.find? (fun r => r.productId == pid)).map f :=
  find?_key_map (fun r => r.productId) f hf l pid

theorem find?_rid_map (l : List Reservation) (f : Reservation → Reservation)
    (hf : ∀ r, (f r).reservationId = r.reservationId) (rid : Nat) :
    (l.map f).find? (fun r => r.reservationId == rid) =
      (l.find? (fun r => r.reservationId == rid)).map f :=
  find?_key_map (fun r => r.reservationId) f hf l rid

theorem WF_initialState : WF initialState := by
  constructor <;> simp [initialState, activeSum, movementSum]

theorem WF_init {s : State} {now : Nat} {pid sku : String} {stock : Int}
    {loc : String} {item : InventoryRecord} {s' : State} (hW : WF s)
    (hstock : 0 ≤ stock)
    (h : initializeInventory s now pid sku stock loc = (.ok item, s')) : WF s' := by
  cases hg : getInventory s pid with
  | some inv =>
    rw [initializeInventory_present hg] at h
    simp at h
  | none =>
    rw [initializeInventory_absent hg] at h
    have hnew : ∀ v ∈ s.inventory, v.productId ≠ pid := getInventory_none hg
    have hres : ∀ r ∈ s.reservations, r.productId ≠ pid := by
      intro r hr he
      have hi := hW.resInv r hr
      rw [he, hg] at hi
      cases hi
    have hmov : ∀ m ∈ s.stockMovements, m.productId ≠ pid := by
      intro m hm he
      have hi := hW.moveInv m hm
      rw [he, hg] at hi
      cases hi
    injection h with h1 h2
    injection h1 with h1
    subst h2
    subst h1
    constructor
    case invPid =>
      rw [List.map_append]
      rw [List.nodup_append]
      refine ⟨hW.invPid, by simp, ?_⟩
      intro x hx
      rcases List.mem_map.mp hx with ⟨v, hv, rfl⟩
      simp [hnew v hv]
    case resId => exact hW.resId
    case ridLt =>
      intro r hr
      exact Nat.lt_succ_of_lt (hW.ridLt r hr)
    case resInv =>
      intro r hr
      rw [getInventory_append]
      exact isSome_or_left (hW.resInv r hr)
    case moveInv =>
      intro m hm
      rcases List.mem_append.mp hm with hm | hm
      · rw [getInventory_append]
        exact isSome_or_left (hW.moveInv m hm)
      · have : m = ⟨s.nextId, pid, "INITIAL", stock, "System initialization", now⟩ := by
          simpa using hm
        subst this
        rw [getInventory_append]
        have hg2 : getInventory
            ⟨s.inventory, s.reservations,
             s.stockMovements ++ [⟨s.nextId, pid, "INITIAL", stock,
               "System initialization", now⟩], s.nextId + 1⟩
            (StockMovement.productId ⟨s.nextId, pid, "INITIAL", stock,
              "System initialization", now⟩) = none := hg
        rw [hg2]
        simp [Option.or]
    case activePos => exact hW.activePos
    case availNonneg =>
      intro v hv
      rcases List.mem_append.mp hv with hv | hv
      · exact hW.availNonneg v hv
      · have : v = ⟨pid, sku, stock, 0, stock, loc, 10, 20, 50, now, now, now⟩ := by
          simpa using hv
        subst this
        exact hstock
    case reservedEq =>
      intro v hv
      rcases List.mem_append.mp hv with hv | hv
      · exact hW.reservedEq v hv
      · have : v = ⟨pid, sku, stock, 0, stock, loc, 10, 20, 50, now, now, now⟩ := by
          simpa using hv
        subst this
        exact (activeSum_eq_zero hres).symm
    case conserve =>
      intro v hv
      rcases List.mem_append.mp hv with hv | hv
      · exact hW.conserve v hv
      · have : v = ⟨pid, sku, stock, 0, stock, loc, 10, 20, 50, now, now, now⟩ := by
          simpa using hv
        subst this
        simp
    case moveSum =>
      intro v hv
      rcases List.mem_append.mp hv with hv | hv
      · rw [movementSum_append]
        rw [if_neg (by simpa using Ne.symm (hnew v hv))]
        simpa using hW.moveSum v hv
      · have : v = ⟨pid, sku, stock, 0, stock, loc, 10, 20, 50, now, now, now⟩ := by
          simpa using hv
        subst this
        rw [movementSum_append]
        rw [movementSum_eq_zero hmov]
        simp

theorem WF_update {s : State} {now : Nat} {pid : String} {q : Int}
    {ty ref : String} {rec : InventoryRecord} {s' : State} (hW : WF s)
    (h : updateStock s now pid q ty ref = (.ok rec, s')) : WF s' := by
  cases hg : getInventory s pid with
  | none =>
    rw [updateStock_err_none hg] at h
    simp at h
  | some inv =>
    by_cases hq : inv.availableStock + q < 0
    · rw [updateStock_err_neg hg hq] at h
      simp at h
    · rw [updateStock_ok hg hq] at h
      injection h with h1 h2
      subst h2
      have hf : ∀ r : InventoryRecord,
          ((fun r => if r.productId == pid then
              { r with availableStock := inv.availableStock + q,
                       totalStock := inv.totalStock + q, updatedAt := now }
            else r) r).productId = r.productId := by
        intro r
        by_cases hc : r.productId == pid <;> simp [hc]
      have hg' : s.inventory.find? (fun x => x.productId == pid) = some inv := hg
      constructor
      · exact nodup_map_key (fun r : InventoryRecord => r.productId) _ hf hW.invPid
      · exact hW.resId
      ·
        intro r hr
        exact Nat.lt_succ_of_lt (hW.ridLt r hr)
      ·
        intro r hr
        rw [getInventory_def]
        dsimp only
        rw [find?_pid_map _ _ hf, Option.isSome_map']
        exact hW.resInv r hr
      ·
        intro m hm
        rw [getInventory_def]
        dsimp only
        rw [find?_pid_map _ _ hf, Option.isSome_map']
        rcases List.mem_append.mp hm with hm | hm
        · exact hW.moveInv m hm
        · have : m = ⟨s.nextId, pid, ty, q, ref, now⟩ := by simpa using hm
          subst this
          dsimp only
          rw [hg']
          rfl
      · exact hW.activePos
      ·
        intro w hw
        rcases List.mem_map.mp hw with ⟨v, hv, rfl⟩
        by_cases hc : v.productId == pid
        · rw [if_pos hc]
          dsimp only
          omega
        · rw [if_neg hc]
          exact hW.availNonneg v hv
      ·
        intro w hw
        rcases List.mem_map.mp hw with ⟨v, hv, rfl⟩
        by_cases hc : v.productId == pid
        · rw [if_pos hc]
          exact hW.reservedEq v hv
        · rw [if_neg hc]
          exact hW.reservedEq v hv
      ·
        intro w hw
        rcases List.mem_map.mp hw with ⟨v, hv, rfl⟩
        by_cases hc : v.productId == pid
        · obtain rfl : v = inv :=
            mem_eq_of_getInventory hW.invPid hv (by simpa using hc) hg
          rw [if_pos hc]
          have hcons := hW.conserve v hv
          dsimp only
          omega
        · rw [if_neg hc]
          exact hW.conserve v hv
      ·
        intro w hw
        rcases List.mem_map.mp hw with ⟨v, hv, rfl⟩
        by_cases hc : v.productId == pid
        · obtain rfl : v = inv :=
            mem_eq_of_getInventory hW.invPid hv (by simpa using hc) hg
          rw [if_pos hc]
          dsimp only
          rw [movementSum_append]
          dsimp only
          have hms := hW.moveSum v hv
          have hvp : v.productId = pid := by simpa using hc
          rw [if_pos (by simp [hvp])]
          omega
        · rw [if_neg hc]
          dsimp only
          rw [movementSum_append]
          have hpe : ¬ (pid == v.productId) = true := by
            intro hb
            exact hc (by simp [beq_iff_eq.mp hb])
          rw [if_neg (by simpa using hpe)]
          simpa using hW.moveSum v hv

theorem WF_reserve {s : State} {now : Nat} {pid : String} {q : Int}
    {oid : String} {m : Nat} {r : Reservation} {s' : State} (hW : WF s)
    (hq0 : 0 < q) (h : reserveStock s now pid q oid m = (.ok r, s')) : WF s' := by
  cases hg : getInventory s pid with
  | none =>
    rw [reserveStock_err_absent hg] at h
    simp at h
  | some inv =>
    by_cases hq : inv.availableStock < q
    · rw [reserveStock_err_short hg hq] at h
      simp at h
    · rw [reserveStock_ok hg hq] at h
      injection h with h1 h2
      subst h2
      have hf : ∀ x : InventoryRecord,
          ((fun x => if x.productId == pid then
              { x with availableStock := inv.availableStock - q,
                       reservedStock := inv.reservedStock + q, updatedAt := now }
            else x) x).productId = x.productId := by
        intro x
        by_cases hc : x.productId == pid <;> simp [hc]
      have hg' : List.find? (fun x => x.productId == pid) s.inventory = some inv := hg
      constructor
      · exact nodup_map_key (fun x : InventoryRecord => x.productId) _ hf hW.invPid
      · rw [List.map_append, List.nodup_append]
        refine ⟨hW.resId, by simp, ?_⟩
        intro x hx
        rcases List.mem_map.mp hx with ⟨y, hy, rfl⟩
        have := hW.ridLt y hy
        simp only [List.map_cons, List.map_nil, List.mem_singleton]
        omega
      · intro x hx
        rcases List.mem_append.mp hx with hx | hx
        · exact Nat.lt_succ_of_lt (hW.ridLt x hx)
        · have : x = ⟨s.nextId, pid, oid, q, .ACTIVE, now, now + m * 60 * 1000⟩ := by
            simpa using hx
          subst this
          exact Nat.lt_succ_self _
      · intro x hx
        rw [getInventory_def]
        dsimp only
        rw [find?_pid_map _ _ hf, Option.isSome_map']
        rcases List.mem_append.mp hx with hx | hx
        · exact hW.resInv x hx
        · have : x = ⟨s.nextId, pid, oid, q, .ACTIVE, now, now + m * 60 * 1000⟩ := by
            simpa using hx
          subst this
          dsimp only
          rw [hg']
          rfl
      · intro x hx
        rw [getInventory_def]
        dsimp only
        rw [find?_pid_map _ _ hf, Option.isSome_map']
        exact hW.moveInv x hx
      · intro x hx hAx
        rcases List.mem_append.mp hx with hx | hx
        · exact hW.activePos x hx hAx
        · have : x = ⟨s.nextId, pid, oid, q, .ACTIVE, now, now + m * 60 * 1000⟩ := by
            simpa using hx
          subst this
          exact hq0
      · intro w hw
        rcases List.mem_map.mp hw with ⟨v, hv, rfl⟩
        by_cases hc : v.productId == pid
        · rw [if_pos hc]
          dsimp only
          omega
        · rw [if_neg hc]
          exact hW.availNonneg v hv
      · intro w hw
        rcases List.mem_map.mp hw with ⟨v, hv, rfl⟩
        by_cases hc : v.productId == pid
        · obtain rfl : v = inv :=
            mem_eq_of_getInventory hW.invPid hv (by simpa using hc) hg
          rw [if_pos hc]
          dsimp only
          rw [activeSum_append]
          have hvp : v.productId = pid := by simpa using hc
          rw [if_pos (by simp [hvp])]
          have := hW.reservedEq v hv
          dsimp only
          omega
        · rw [if_neg hc]
          dsimp only
          rw [activeSum_append]
          have hpe : ¬ (pid == v.productId) = true := by
            intro hb
            exact hc (by simp [beq_iff_eq.mp hb])
          rw [if_neg (by simpa using hpe)]
          simpa using hW.reservedEq v hv
      · intro w hw
        rcases List.mem_map.mp hw with ⟨v, hv, rfl⟩
        by_cases hc : v.productId == pid
        · obtain rfl : v = inv :=
            mem_eq_of_getInventory hW.invPid hv (by simpa using hc) hg
          rw [if_pos hc]
          have hcons := hW.conserve v hv
          dsimp only
          omega
        · rw [if_neg hc]
          exact hW.conserve v hv
      · intro w hw
        rcases List.mem_map.mp hw with ⟨v, hv, rfl⟩
        by_cases hc : v.productId == pid
        · rw [if_pos hc]
          exact hW.moveSum v hv
        · rw [if_neg hc]
          exact hW.moveSum v hv

theorem WF_confirm {s : State} {now : Nat} {rid : Nat} {res : ConfirmResult}
    {s' : State} (hW : WF s)
    (h : confirmReservation s now rid = (.ok res, s')) : WF s' := by
  cases hR : getReservation s rid with
  | none =>
    rw [confirmReservation_err_absent hR] at h
    simp at h
  | some r =>
    by_cases hA : r.status = RStatus.ACTIVE
    case neg =>
      rw [confirmReservation_err_state hR hA] at h
      simp at h
    case pos =>
      cases hI : getInventory s r.productId with
      | none =>
        rw [confirmReservation_err_noinv hR hA hI] at h
        simp at h
      | some inv =>
        rw [confirmReservation_ok hR hA hI] at h
        injection h with h1 h2
        subst h2
        have hmem := getReservation_mem hR
        have hfI : ∀ x : InventoryRecord,
            ((fun x => if x.productId == r.productId then
                { x with reservedStock := inv.reservedStock - r.quantity,
                         totalStock := inv.totalStock - r.quantity,
                         updatedAt := now }
              else x) x).productId = x.productId := by
          intro x
          by_cases hc : x.productId == r.productId <;> simp [hc]
        have hfR : ∀ x : Reservation,
            ((fun x => if x.reservationId == rid then
                { x with status := RStatus.CONFIRMED }
              else x) x).reservationId = x.reservationId := by
          intro x
          by_cases hc : x.reservationId == rid <;> simp [hc]
        have hfRp : ∀ x : Reservation,
            ((fun x => if x.reservationId == rid then
                { x with status := RStatus.CONFIRMED }
              else x) x).productId = x.productId := by
          intro x
          by_cases hc : x.reservationId == rid <;> simp [hc]
        have hI' : List.find? (fun x => x.productId == r.productId) s.inventory =
            some inv := hI
        constructor
        · exact nodup_map_key (fun x : InventoryRecord => x.productId) _ hfI hW.invPid
        · exact nodup_map_key (fun x : Reservation => x.reservationId) _ hfR hW.resId
        · intro x hx
          rcases List.mem_map.mp hx with ⟨y, hy, rfl⟩
          rw [hfR y]
          exact Nat.lt_succ_of_lt (hW.ridLt y hy)
        · intro x hx
          rcases List.mem_map.mp hx with ⟨y, hy, rfl⟩
          rw [getInventory_def]
          dsimp only
          rw [find?_pid_map _ _ hfI, Option.isSome_map', hfRp y]
          exact hW.resInv y hy
        · intro x hx
          rw [getInventory_def]
          dsimp only
          rw [find?_pid_map _ _ hfI, Option.isSome_map']
          rcases List.mem_append.mp hx with hx | hx
          · exact hW.moveInv x hx
          · have : x = ⟨s.nextId, r.productId, "SALE", -r.quantity,
                "Order: " ++ r.orderId, now⟩ := by
              simpa using hx
            subst this
            dsimp only
            rw [hI']
            rfl
        · intro x hx hAx
          rcases List.mem_map.mp hx with ⟨y, hy, rfl⟩
          by_cases hc : y.reservationId == rid
          · rw [if_pos hc] at hAx
            simp at hAx
          · rw [if_neg hc] at hAx ⊢
            exact hW.activePos y hy hAx
        · intro w hw
          rcases List.mem_map.mp hw with ⟨v, hv, rfl⟩
          by_cases hc : v.productId == r.productId
          · rw [if_pos hc]
            exact hW.availNonneg v hv
          · rw [if_neg hc]
            exact hW.availNonneg v hv
        · intro w hw
          rcases List.mem_map.mp hw with ⟨v, hv, rfl⟩
          have hres := activeSum_map_resolve RStatus.CONFIRMED
            (by simp) hW.resId hmem.1 hmem.2 hA
          by_cases hc : v.productId == r.productId
          · obtain rfl : v = inv :=
              mem_eq_of_getInventory hW.invPid hv (by simpa using hc) hI
            rw [if_pos hc]
            dsimp only
            rw [hres v.productId]
            have hvp : v.productId = r.productId := by simpa using hc
            rw [if_pos (by simp [hvp])]
            have := hW.reservedEq v hv
            omega
          · rw [if_neg hc]
            rw [hres v.productId]
            have hpe : ¬ (r.productId == v.productId) = true := by
              intro hb
              exact hc (by simp [beq_iff_eq.mp hb])
            rw [if_neg hpe]
            have := hW.reservedEq v hv
            omega
        · intro w hw
          rcases List.mem_map.mp hw with ⟨v, hv, rfl⟩
          by_cases hc : v.productId == r.productId
          · obtain rfl : v = inv :=
              mem_eq_of_getInventory hW.invPid hv (by simpa using hc) hI
            rw [if_pos hc]
            have hcons := hW.conserve v hv
            dsimp only
            omega
          · rw [if_neg hc]
            exact hW.conserve v hv
        · intro w hw
          rcases List.mem_map.mp hw with ⟨v, hv, rfl⟩
          by_cases hc : v.productId == r.productId
          · obtain rfl : v = inv :=
              mem_eq_of_getInventory hW.invPid hv (by simpa using hc) hI
            rw [if_pos hc]
            dsimp only
            rw [movementSum_append]
            dsimp only
            have hms := hW.moveSum v hv
            have hvp : v.productId = r.productId := by simpa using hc
            rw [if_pos (by simp [hvp])]
            omega
          · rw [if_neg hc]
            dsimp only
            rw [movementSum_append]
            dsimp only
            have hpe : ¬ (r.productId == v.productId) = true := by
              intro hb
              exact hc (by simp [beq_iff_eq.mp hb])
            rw [if_neg hpe]
            simpa using hW.moveSum v hv

theorem WF_cancel {s : State} {now : Nat} {rid : Nat} {res : CancelResult}
    {s' : State} (hW : WF s)
    (h : cancelReservation s now rid = (.ok res, s')) : WF s' := by
  cases hR : getReservation s rid with
  | none =>
    rw [cancelReservation_err_absent hR] at h
    simp at h
  | some r =>
    by_cases hA : r.status = RStatus.ACTIVE
    case neg =>
      rw [cancelReservation_noop hR hA] at h
      injection h with h1 h2
      subst h2
      exact hW
    case pos =>
      cases hI : getInventory s r.productId with
      | none =>
        rw [cancelReservation_err_noinv hR hA hI] at h
        simp at h
      | some inv =>
        rw [cancelReservation_ok hR hA hI] at h
        injection h with h1 h2
        subst h2
        have hmem := getReservation_mem hR
        have hq0 : 0 < r.quantity := hW.activePos r hmem.1 hA
        have hfI : ∀ x : InventoryRecord,
            ((fun x => if x.productId == r.productId then
                { x with availableStock := inv.availableStock + r.quantity,
                         reservedStock := inv.reservedStock - r.quantity,
                         updatedAt := now }
              else x) x).productId = x.productId := by
          intro x
          by_cases hc : x.productId == r.productId <;> simp [hc]
        have hfR : ∀ x : Reservation,
            ((fun x => if x.reservationId == rid then
                { x with status := RStatus.CANCELLED }
              else x) x).reservationId = x.reservationId := by
          intro x
          by_cases hc : x.reservationId == rid <;> simp [hc]
        have hfRp : ∀ x : Reservation,
            ((fun x => if x.reservationId == rid then
                { x with status := RStatus.CANCELLED }
              else x) x).productId = x.productId := by
          intro x
          by_cases hc : x.reservationId == rid <;> simp [hc]
        constructor
        · exact nodup_map_key (fun x : InventoryRecord => x.productId) _ hfI hW.invPid
        · exact nodup_map_key (fun x : Reservation => x.reservationId) _ hfR hW.resId
        · intro x hx
          rcases List.mem_map.mp hx with ⟨y, hy, rfl⟩
          rw [hfR y]
          exact hW.ridLt y hy
        · intro x hx
          rcases List.mem_map.mp hx with ⟨y, hy, rfl⟩
          rw [getInventory_def]
          dsimp only
          rw [find?_pid_map _ _ hfI, Option.isSome_map', hfRp y]
          exact hW.resInv y hy
        · intro x hx
          rw [getInventory_def]
          dsimp only
          rw [find?_pid_map _ _ hfI, Option.isSome_map']
          exact hW.moveInv x hx
        · intro x hx hAx
          rcases List.mem_map.mp hx with ⟨y, hy, rfl⟩
          by_cases hc : y.reservationId == rid
          · rw [if_pos hc] at hAx
            simp at hAx
          · rw [if_neg hc] at hAx ⊢
            exact hW.activePos y hy hAx
        · intro w hw
          rcases List.mem_map.mp hw with ⟨v, hv, rfl⟩
          by_cases hc : v.productId == r.productId
          · rw [if_pos hc]
            have := hW.availNonneg inv (getInventory_mem hI).1
            dsimp only
            omega
          · rw [if_neg hc]
            exact hW.availNonneg v hv
        · intro w hw
          rcases List.mem_map.mp hw with ⟨v, hv, rfl⟩
          have hres := activeSum_map_resolve RStatus.CANCELLED
            (by simp) hW.resId hmem.1 hmem.2 hA
          by_cases hc : v.productId == r.productId
          · obtain rfl : v = inv :=
              mem_eq_of_getInventory hW.invPid hv (by simpa using hc) hI
            rw [if_pos hc]
            dsimp only
            rw [hres v.productId]
            have hvp : v.productId = r.productId := by simpa using hc
            rw [if_pos (by simp [hvp])]
            have := hW.reservedEq v hv
            omega
          · rw [if_neg hc]
            rw [hres v.productId]
            have hpe : ¬ (r.productId == v.productId) = true := by
              intro hb
              exact hc (by simp [beq_iff_eq.mp hb])
            rw [if_neg hpe]
            have := hW.reservedEq v hv
            omega
        · intro w hw
          rcases List.mem_map.mp hw with ⟨v, hv, rfl⟩
          by_cases hc : v.productId == r.productId
          · obtain rfl : v = inv :=
              mem_eq_of_getInventory hW.invPid hv (by simpa using hc) hI
            rw [if_pos hc]
            have hcons := hW.conserve v hv
            dsimp only
            omega
          · rw [if_neg hc]
            exact hW.conserve v hv
        · intro w hw
          rcases List.mem_map.mp hw with ⟨v, hv, rfl⟩
          by_cases hc : v.productId == r.productId
          · rw [if_pos hc]
            exact hW.moveSum v hv
          · rw [if_neg hc]
            exact hW.moveSum v hv

/-- Every single successful operation preserves the store invariants. -/
theorem Step_WF {s s' : State} (hW : WF s) (h : Step s s') : WF s' := by
  cases h with
  | init _ _ _ _ _ _ _ hstock hop => exact WF_init hW hstock hop
  | update _ _ _ _ _ _ _ hq hop => exact WF_update hW hop
  | reserve _ _ _ _ _ _ _ hq hop => exact WF_reserve hW hq hop
  | confirm _ _ _ _ hop => exact WF_confirm hW hop
  | cancel _ _ _ _ hop => exact WF_cancel hW hop

/-- Every reachable store is well formed. -/
theorem reachable_WF {s : State} (h : Reachable s) : WF s := by
  induction h with
  | refl => exact WF_initialState
  | tail _ hstep ih => exact Step_WF ih hstep

/-- `reserveStock` is its read round-trip followed by its write phase. -/
theorem reserveStock_eq_read_then_write (s : State) (now : Nat) (pid : String)
    (q : Int) (oid : String) (m : Nat) :
    reserveStock s now pid q oid m =
      (match getInventory s pid with
       | none => (.error "Insufficient stock available", s)
       | some inv => reserveWrite s now inv pid q oid m) := by
  unfold reserveStock reserveWrite
  rfl

/-- Looking a reservation up after a reservationId-preserving rewrite of
the reservations table finds the rewritten row. -/
theorem getReservation_map_matched {s : State} {rid : Nat} {r : Reservation}
    (hR : getReservation s rid = some r) (f : Reservation → Reservation)
    (hf : ∀ x, (f x).reservationId = x.reservationId)
    {inv : List InventoryRecord} {ms : List StockMovement} {n : Nat} :
    getReservation ⟨inv, s.reservations.map f, ms, n⟩ rid = some (f r) := by
  rw [getReservation_def]
  dsimp only
  rw [find?_rid_map _ _ hf]
  have hR' : List.find? (fun x => x.reservationId == rid) s.reservations = some r := hR
  rw [hR']
  rfl

/-- Looking a record up after a productId-preserving rewrite of the
inventory table finds the rewritten row. -/
theorem getInventory_map_matched {s : State} {pid : String} {inv : InventoryRecord}
    (hI : getInventory s pid = some inv) (f : InventoryRecord → InventoryRecord)
    (hf : ∀ x, (f x).productId = x.productId)
    {rs : List Reservation} {ms : List StockMovement} {n : Nat} :
    getInventory ⟨s.inventory.map f, rs, ms, n⟩ pid = some (f inv) := by
  rw [getInventory_def]
  dsimp only
  rw [find?_pid_map _ _ hf]
  have hI' : List.find? (fun x => x.productId == pid) s.inventory = some inv := hI
  rw [hI']
  rfl

/-! ### The reclaim sweep -/

theorem sumFor_cons (r : Reservation) (l : List Reservation) (pid : String) :
    sumFor (r :: l) pid =
      (if r.productId == pid then r.quantity else 0) + sumFor l pid := by
  by_cases h : r.productId == pid <;> simp [sumFor, List.filter_cons, h]

theorem sumFor_eq_zero {l : List Reservation} {pid : String}
    (h : l.any (fun r => r.productId == pid) = false) : sumFor l pid = 0 := by
  rw [List.any_eq_false] at h
  have hnil : l.filter (fun r => r.productId == pid) = [] :=
    List.filter_eq_nil_iff.mpr h
  simp [sumFor, hnil]

theorem countP_or_disjoint {α : Type} (p q : α → Bool) :
    ∀ l : List α, (∀ x ∈ l, ¬(p x = true ∧ q x = true)) →
    l.countP (fun x => p x || q x) = l.countP p + l.countP q := by
  intro l
  induction l with
  | nil =>
    intro h
    simp
  | cons a t ih =>
    intro h
    have ht := ih (fun x hx => h x (List.mem_cons_of_mem a hx))
    rw [List.countP_cons, List.countP_cons, List.countP_cons, ht]
    by_cases hp : p a = true
    · by_cases hq : q a = true
      · exact absurd ⟨hp, hq⟩ (h a (List.mem_cons_self a t))
      · simp only [hp, Bool.true_or, if_true]
        simp [hq]
        omega
    · simp only [Bool.not_eq_true] at hp
      simp [hp]
      omega

theorem isSome_find?_pid_map (l : List InventoryRecord)
    (f : InventoryRecord → InventoryRecord)
    (hf : ∀ r, (f r).productId = r.productId) (pid : String) :
    ((l.map f).find? (fun x => x.productId == pid)).isSome =
      (l.find? (fun x => x.productId == pid)).isSome := by
  rw [find?_pid_map _ _ hf, Option.isSome_map']

/-- The sweep's cancel loop equals `markCancelled`: it cancels exactly
those snapshot reservations whose product still has a record, each
product's reclaimed quantity returns to `availableStock`, and a failing
iteration (a reservation whose product has no record, where the source
throws inside its try/catch) leaves the store untouched while the loop
continues with the rest. -/
theorem cleanup_loop_spec (now : Nat) (l : List Reservation) :
    ∀ st : State,
    (st.inventory.map (fun x => x.productId)).Nodup →
    (st.reservations.map (fun x => x.reservationId)).Nodup →
    (l.map (fun x => x.reservationId)).Nodup →
    (∀ r ∈ l, getReservation st r.reservationId = some r ∧
      r.status = RStatus.ACTIVE) →
    l.foldl (fun st2 r => (cancelReservation st2 now r.reservationId).2) st =
      markCancelled st l now := by
  induction l with
  | nil =>
    intro st hUP hUR hl hmem
    simp [markCancelled]
  | cons r t ih =>
    intro st hUP hUR hl hmem
    obtain ⟨hRr, hAr⟩ := hmem r (List.mem_cons_self r t)
    have hlt : r.reservationId ∉ t.map (fun x => x.reservationId) ∧
        (t.map (fun x => x.reservationId)).Nodup := by
      simpa [List.nodup_cons] using hl
    rw [List.foldl_cons]
    cases hI : getInventory st r.productId with
    | none =>
      have hstep : (cancelReservation st now r.reservationId).2 = st := by
        rw [cancelReservation_err_noinv hRr hAr hI]
      rw [hstep, ih st hUP hUR hlt.2
        (fun x hx => hmem x (List.mem_cons_of_mem r hx))]
      unfold markCancelled
      congr 1
      · apply List.map_congr_left
        intro v hv
        have hplt : (r.productId == v.productId) = false := by
          rw [beq_eq_false_iff_ne]
          intro he
          have hvv := getInventory_of_mem hUP hv
          rw [← he, hI] at hvv
          cases hvv
        simp [List.any_cons, hplt, sumFor_cons]
      · apply List.map_congr_left
        intro x hx
        by_cases hxr : (x.reservationId == r.reservationId) = true
        · obtain rfl : x = r :=
            mem_eq_of_getReservation hUR hx (by simpa using hxr) hRr
          simp [List.any_cons, hI]
        · have hrx : (r.reservationId == x.reservationId) = false := by
            rw [beq_eq_false_iff_ne]
            intro he
            exact hxr (by simp [he])
          simp [List.any_cons, hrx]
    | some inv =>
      have hfI : ∀ x : InventoryRecord,
          ((fun x => if x.productId == r.productId then
              { x with availableStock := inv.availableStock + r.quantity,
                       reservedStock := inv.reservedStock - r.quantity,
                       updatedAt := now }
            else x) x).productId = x.productId := by
        intro x
        by_cases hc : x.productId == r.productId <;> simp [hc]
      have hfR : ∀ x : Reservation,
          ((fun x => if x.reservationId == r.reservationId then
              { x with status := RStatus.CANCELLED } else x) x).reservationId =
            x.reservationId := by
        intro x
        by_cases hc : x.reservationId == r.reservationId <;> simp [hc]
      have hstep : (cancelReservation st now r.reservationId).2 =
          ⟨st.inventory.map (fun x =>
              if x.productId == r.productId then
                { x with availableStock := inv.availableStock + r.quantity,
                         reservedStock := inv.reservedStock - r.quantity,
                         updatedAt := now }
              else x),
            st.reservations.map (fun x =>
              if x.reservationId == r.reservationId then
                { x with status := RStatus.CANCELLED } else x),
            st.stockMovements, st.nextId⟩ := by
        rw [cancelReservation_ok hRr hAr hI]
      have hmem' : ∀ x ∈ t,
          getReservation
            ⟨st.inventory.map (fun x =>
                if x.productId == r.productId then
                  { x with availableStock := inv.availableStock + r.quantity,
                           reservedStock := inv.reservedStock - r.quantity,
                           updatedAt := now }
                else x),
              st.reservations.map (fun x =>
                if x.reservationId == r.reservationId then
                  { x with status := RStatus.CANCELLED } else x),
              st.stockMovements, st.nextId⟩ x.reservationId = some x ∧
            x.status = RStatus.ACTIVE := by
        intro x hx
        obtain ⟨hgx, hax⟩ := hmem x (List.mem_cons_of_mem r hx)
        have hxr : (x.reservationId == r.reservationId) = false := by
          rw [beq_eq_false_iff_ne]
          intro he
          exact hlt.1 (he ▸ List.mem_map_of_mem _ hx)
        refine ⟨?_, hax⟩
        rw [getReservation_map_matched hgx _ hfR]
        simp [hxr]
      rw [hstep]
      rw [ih _ (nodup_map_key (fun x : InventoryRecord => x.productId) _ hfI hUP)
        (nodup_map_key (fun x : Reservation => x.reservationId) _ hfR hUR)
        hlt.2 hmem']
      have hSome : ∀ pid' : String,
          (getInventory
            ⟨st.inventory.map (fun x =>
                if x.productId == r.productId then
                  { x with availableStock := inv.availableStock + r.quantity,
                           reservedStock := inv.reservedStock - r.quantity,
                           updatedAt := now }
                else x),
              st.reservations.map (fun x =>
                if x.reservationId == r.reservationId then
                  { x with status := RStatus.CANCELLED } else x),
              st.stockMovements, st.nextId⟩ pid').isSome =
            (getInventory st pid').isSome := by
        intro pid'
        rw [getInventory_def, getInventory_def]
        dsimp only
        exact isSome_find?_pid_map _ _ hfI pid'
      unfold markCancelled
      congr 1
      · rw [List.map_map]
        apply List.map_congr_left
        intro v hv
        dsimp only [Function.comp]
        by_cases hvp : (v.productId == r.productId) = true
        · obtain rfl : v = inv :=
            mem_eq_of_getInventory hUP hv (by simpa using hvp) hI
          have hpv : (r.productId == v.productId) = true := by
            have := beq_iff_eq.mp hvp
            simp [this]
          rw [if_pos hvp]
          simp only [List.any_cons, hpv, Bool.true_or, if_true, sumFor_cons]
          by_cases ht : t.any (fun rr => rr.productId == v.productId) = true
          · simp only [ht, if_true]
            simp [InventoryRecord.mk.injEq, hpv]
            omega
          · simp only [Bool.not_eq_true] at ht
            simp only [ht, if_false]
            rw [sumFor_eq_zero ht]
            simp [InventoryRecord.mk.injEq, hpv]
        · have hpv : (r.productId == v.productId) = false := by
            rw [beq_eq_false_iff_ne]
            intro he
            exact hvp (by simp [he])
          rw [if_neg hvp]
          simp [List.any_cons, hpv, sumFor_cons]
      · rw [List.map_map]
        apply List.map_congr_left
        intro x hx
        dsimp only [Function.comp]
        by_cases hxr : (x.reservationId == r.reservationId) = true
        · obtain rfl : x = r :=
            mem_eq_of_getReservation hUR hx (by simpa using hxr) hRr
          rw [if_pos hxr]
          have htany : t.any (fun rr => rr.reservationId == x.reservationId) =
              false := by
            rw [List.any_eq_false]
            intro y hy hbe
            have hyx : x.reservationId ∈ t.map (fun z => z.reservationId) := by
              rw [← beq_iff_eq.mp hbe]
              exact List.mem_map_of_mem _ hy
            exact hlt.1 hyx
          simp [List.any_cons, hI, htany]
        · have hrx : (r.reservationId == x.reservationId) = false := by
            rw [beq_eq_false_iff_ne]
            intro he
            exact hxr (by simp [he])
          rw [if_neg hxr]
          rw [hSome x.productId]
          simp [List.any_cons, hrx]

theorem cleanup_def (s : State) (now : Nat) :
    cleanupExpiredReservations s now =
      ((expiredActive s now).length,
       (expiredActive s now).foldl
         (fun st r => (cancelReservation st now r.reservationId).2) s) := rfl

/-! ### The claims -/

/-- C1: three-counter invariant. In every store reachable from the empty
one by successful operations (`initializeInventory` with non-negative
initial stock, then any mix of `updateStock` and `reserveStock` with
positive quantities and `confirmReservation` / `cancelReservation`),
every inventory record satisfies
`availableStock + reservedStock = totalStock` with all three counters
non-negative. -/
theorem reachable_conservation {s : State} (h : Reachable s) :
    ∀ v ∈ s.inventory,
      v.availableStock + v.reservedStock = v.totalStock ∧
      0 ≤ v.availableStock ∧ 0 ≤ v.reservedStock ∧ 0 ≤ v.totalStock := by
  have hW := reachable_WF h
  intro v hv
  have h1 := hW.conserve v hv
  have h2 := hW.availNonneg v hv
  have h3 : 0 ≤ v.reservedStock := by
    rw [hW.reservedEq v hv]
    exact activeSum_nonneg _ hW.activePos
  exact ⟨h1, h2, h3, by omega⟩

/-- Witness for C1 at the store reached by one initialization. -/
theorem reachable_conservation_witness :
    itemA.availableStock + itemA.reservedStock = itemA.totalStock ∧
    0 ≤ itemA.availableStock ∧ 0 ≤ itemA.reservedStock ∧
    0 ≤ itemA.totalStock := by
  have hreach : Reachable sA :=
    Relation.ReflTransGen.single
      (Step.init initialState 0 "p1" "SKU1" 50 "WH-A" itemA sA (by norm_num) rfl)
  exact reachable_conservation hreach itemA (by decide)

/-- C2 counterexample: the claim says the two failure cases of reserve are
distinct (`NotFound` for a missing record, `InsufficientStock` for a short
one). On the code both are the same thrown error,
`Insufficient stock available`: reserving from the empty store (no record
for p1) produces it, and so does reserving 1000 from a record with 50
available; the codebase's not-found error text
(`Inventory not found for this product`, used by updateStock) never
appears on the reserve path. -/
theorem reserve_errors_not_distinct :
    (reserveStock initialState 0 "p1" 1 "orderA" 15).1 =
      .error "Insufficient stock available" ∧
    (reserveStock sA 1 "p1" 1000 "orderB" 15).1 =
      .error "Insufficient stock available" ∧
    "Insufficient stock available" ≠ "Inventory not found for this product" := by
  exact ⟨rfl, rfl, by decide⟩

/-- C2 as amended: both failure cases of `reserveStock` — record absent,
and record present with `availableStock < quantity` — fail with the same
single error `Insufficient stock available`, leaving the store unchanged;
there is no distinct NotFound outcome. -/
theorem reserve_failure_single_error (s : State) (now : Nat) (pid : String)
    (q : Int) (oid : String) (m : Nat) :
    (getInventory s pid = none →
      reserveStock s now pid q oid m =
        (.error "Insufficient stock available", s)) ∧
    (∀ inv, getInventory s pid = some inv → inv.availableStock < q →
      reserveStock s now pid q oid m =
        (.error "Insufficient stock available", s)) := by
  constructor
  · intro h
    exact reserveStock_err_absent h
  · intro inv h hq
    exact reserveStock_err_short h hq

/-- Witness for the amended C2 at the two concrete failing calls. -/
theorem reserve_failure_single_error_witness :
    reserveStock initialState 0 "p1" 1 "orderA" 15 =
      (.error "Insufficient stock available", initialState) ∧
    reserveStock sA 1 "p1" 1000 "orderB" 15 =
      (.error "Insufficient stock available", sA) := by
  exact ⟨(reserve_failure_single_error initialState 0 "p1" 1 "orderA" 15).1 rfl,
         (reserve_failure_single_error sA 1 "p1" 1000 "orderB" 15).2 itemA
           (by decide) (by decide)⟩

/-- C3 (code bug): two `reserve` calls racing on a one-unit product. The
source's reserve is an unprotected read (`docClient.get`) followed by a
write (`update ... SET` of absolute counters); in the schedule read-A,
read-B, write-A, write-B both reads see `availableStock = 1`, both checks
pass, and both calls succeed. The store ends with two ACTIVE one-unit
reservations — an ACTIVE + CONFIRMED quantity of 2 against a product whose
`totalStock` was 1 at both reservations' time — so the no-oversell bound
is violated. -/
theorem oversell_under_interleaving :
    getInventory sOne "p1" = some staleOne ∧
    (reserveWrite sOne 1 staleOne "p1" 1 "orderA" 15).1 =
      .ok ⟨1, "p1", "orderA", 1, .ACTIVE, 1, 1 + 15 * 60 * 1000⟩ ∧
    (reserveWrite (reserveWrite sOne 1 staleOne "p1" 1 "orderA" 15).2
        2 staleOne "p1" 1 "orderB" 15).1 =
      .ok ⟨2, "p1", "orderB", 1, .ACTIVE, 2, 2 + 15 * 60 * 1000⟩ ∧
    activeConfirmedSum sRace.reservations "p1" = 2 ∧
    staleOne.totalStock = 1 ∧
    (getInventory sRace "p1").map (fun v => v.totalStock) = some 1 ∧
    ¬ activeConfirmedSum sRace.reservations "p1" ≤ staleOne.totalStock := by
  refine ⟨rfl, rfl, rfl, by decide, rfl, by decide, by decide⟩

/-- C4: a successful confirm of an ACTIVE reservation moves its quantity
out of `reservedStock` and `totalStock`, leaves `availableStock` as it
was, marks the stored reservation CONFIRMED, appends exactly one SALE
movement of `-quantity` whose reference carries the order id, and returns
the row read before the update. -/
theorem confirm_effect {s : State} {now : Nat} {rid : Nat} {r : Reservation}
    {inv : InventoryRecord}
    (hR : getReservation s rid = some r) (hA : r.status = RStatus.ACTIVE)
    (hI : getInventory s r.productId = some inv) :
    ∃ s', confirmReservation s now rid =
        (.ok { success := true, reservation := r }, s') ∧
      getInventory s' r.productId = some
        { inv with reservedStock := inv.reservedStock - r.quantity,
                   totalStock := inv.totalStock - r.quantity,
                   updatedAt := now } ∧
      getReservation s' rid = some { r with status := RStatus.CONFIRMED } ∧
      s'.stockMovements = s.stockMovements ++
        [⟨s.nextId, r.productId, "SALE", -r.quantity,
          "Order: " ++ r.orderId, now⟩] := by
  have hfI : ∀ x : InventoryRecord,
      ((fun x => if x.productId == r.productId then
          { x with reservedStock := inv.reservedStock - r.quantity,
                   totalStock := inv.totalStock - r.quantity,
                   updatedAt := now }
        else x) x).productId = x.productId := by
    intro x
    by_cases hc : x.productId == r.productId <;> simp [hc]
  have hfR : ∀ x : Reservation,
      ((fun x => if x.reservationId == rid then
          { x with status := RStatus.CONFIRMED } else x) x).reservationId =
        x.reservationId := by
    intro x
    by_cases hc : x.reservationId == rid <;> simp [hc]
  refine ⟨_, confirmReservation_ok hR hA hI, ?_, ?_, rfl⟩
  · rw [getInventory_map_matched hI _ hfI]
    have hpp : (inv.productId == r.productId) = true := by
      simp [(getInventory_mem hI).2]
    simp [hpp]
  · rw [getReservation_map_matched hR _ hfR]
    have hrr : (r.reservationId == rid) = true := by
      simp [(getReservation_mem hR).2]
    simp [hrr]

/-- Witness for C4 at Scenario B's store: confirming reservation 1 of sB. -/
theorem confirm_effect_witness :
    ∃ s', confirmReservation sB 2 1 =
        (.ok { success := true,
               reservation := ⟨1, "p1", "orderA", 10, RStatus.ACTIVE, 1, 900001⟩ },
         s') ∧
      getInventory s' "p1" = some
        ⟨"p1", "SKU1", 40, 10 - 10, 50 - 10, "WH-A", 10, 20, 50, 0, 0, 2⟩ ∧
      getReservation s' 1 =
        some ⟨1, "p1", "orderA", 10, RStatus.CONFIRMED, 1, 900001⟩ ∧
      s'.stockMovements = sB.stockMovements ++
        [⟨2, "p1", "SALE", -10, "Order: orderA", 2⟩] :=
  @confirm_effect sB 2 1 ⟨1, "p1", "orderA", 10, RStatus.ACTIVE, 1, 900001⟩
    ⟨"p1", "SKU1", 40, 10, 50, "WH-A", 10, 20, 50, 0, 0, 1⟩
    (by decide) rfl (by decide)

/-- C5: cancelling an ACTIVE reservation cancels it — its quantity moves
back from reserved to available and the stored row becomes CANCELLED —
and a second cancel of the same reservation is reported as already
processed and returns the very same store, so no counter moves again. -/
theorem cancel_idempotent {s : State} {now now2 : Nat} {rid : Nat}
    {r : Reservation} {inv : InventoryRecord}
    (hR : getReservation s rid = some r) (hA : r.status = RStatus.ACTIVE)
    (hI : getInventory s r.productId = some inv) :
    ∃ s1, cancelReservation s now rid =
        (.ok { success := true, message := none, reservation := some r }, s1) ∧
      getReservation s1 rid = some { r with status := RStatus.CANCELLED } ∧
      getInventory s1 r.productId = some
        { inv with availableStock := inv.availableStock + r.quantity,
                   reservedStock := inv.reservedStock - r.quantity,
                   updatedAt := now } ∧
      cancelReservation s1 now2 rid =
        (.ok { success := true, message := some "Reservation already processed",
               reservation := none }, s1) := by
  have hfI : ∀ x : InventoryRecord,
      ((fun x => if x.productId == r.productId then
          { x with availableStock := inv.availableStock + r.quantity,
                   reservedStock := inv.reservedStock - r.quantity,
                   updatedAt := now }
        else x) x).productId = x.productId := by
    intro x
    by_cases hc : x.productId == r.productId <;> simp [hc]
  have hfR : ∀ x : Reservation,
      ((fun x => if x.reservationId == rid then
          { x with status := RStatus.CANCELLED } else x) x).reservationId =
        x.reservationId := by
    intro x
    by_cases hc : x.reservationId == rid <;> simp [hc]
  have hres : getReservation
      ⟨s.inventory.map (fun x =>
          if x.productId == r.productId then
            { x with availableStock := inv.availableStock + r.quantity,
                     reservedStock := inv.reservedStock - r.quantity,
                     updatedAt := now }
          else x),
        s.reservations.map (fun x =>
          if x.reservationId == rid then { x with status := RStatus.CANCELLED }
          else x),
        s.stockMovements, s.nextId⟩ rid =
      some { r with status := RStatus.CANCELLED } := by
    rw [getReservation_map_matched hR
      (fun x => if x.reservationId == rid then
        { x with status := RStatus.CANCELLED } else x) hfR]
    have hrr : (r.reservationId == rid) = true := by
      simp [(getReservation_mem hR).2]
    simp [hrr]
  refine ⟨_, cancelReservation_ok hR hA hI, hres, ?_,
    cancelReservation_noop hres (by simp)⟩
  rw [getInventory_map_matched hI
    (fun x => if x.productId == r.productId then
      { x with availableStock := inv.availableStock + r.quantity,
               reservedStock := inv.reservedStock - r.quantity,
               updatedAt := now }
      else x) hfI]
  have hpp : (inv.productId == r.productId) = true := by
    simp [(getInventory_mem hI).2]
  simp [hpp]

/-- Witness for C5 at Scenario B's store: cancelling reservation 1 twice. -/
theorem cancel_idempotent_witness :
    ∃ s1, cancelReservation sB 2 1 =
        (.ok { success := true, message := none,
               reservation := some ⟨1, "p1", "orderA", 10, RStatus.ACTIVE, 1, 900001⟩ },
         s1) ∧
      getReservation s1 1 =
        some ⟨1, "p1", "orderA", 10, RStatus.CANCELLED, 1, 900001⟩ ∧
      getInventory s1 "p1" = some
        ⟨"p1", "SKU1", 40 + 10, 10 - 10, 50, "WH-A", 10, 20, 50, 0, 0, 2⟩ ∧
      cancelReservation s1 3 1 =
        (.ok { success := true, message := some "Reservation already processed",
               reservation := none }, s1) :=
  @cancel_idempotent sB 2 3 1 ⟨1, "p1", "orderA", 10, RStatus.ACTIVE, 1, 900001⟩
    ⟨"p1", "SKU1", 40, 10, 50, "WH-A", 10, 20, 50, 0, 0, 1⟩
    (by decide) rfl (by decide)

/-- C6: once a reservation is CONFIRMED, cancel is a pure no-op returning
the already-processed result and the unchanged store; once CANCELLED,
confirm fails with the not-active (InvalidState) error; confirm of an
unknown id fails with the not-found error. -/
theorem confirm_cancel_exclusivity (s : State) (now : Nat) (rid : Nat) :
    (∀ r, getReservation s rid = some r → r.status = RStatus.CONFIRMED →
      cancelReservation s now rid =
        (.ok { success := true, message := some "Reservation already processed",
               reservation := none }, s)) ∧
    (∀ r, getReservation s rid = some r → r.status = RStatus.CANCELLED →
      confirmReservation s now rid = (.error "Reservation is not active", s)) ∧
    (getReservation s rid = none →
      confirmReservation s now rid = (.error "Reservation not found", s)) := by
  refine ⟨?_, ?_, ?_⟩
  · intro r hR hC
    exact cancelReservation_noop hR (by simp [hC])
  · intro r hR hC
    exact confirmReservation_err_state hR (by simp [hC])
  · intro h
    exact confirmReservation_err_absent h

/-- Witness for C6: cancelling the confirmed reservation of `sC` is a
no-op, confirming the cancelled reservation of `sCancel` fails with the
not-active error, and confirming an unknown id fails with not-found. -/
theorem confirm_cancel_exclusivity_witness :
    cancelReservation sC 3 1 =
      (.ok { success := true, message := some "Reservation already processed",
             reservation := none }, sC) ∧
    confirmReservation sCancel 3 1 =
      (.error "Reservation is not active", sCancel) ∧
    confirmReservation sA 3 99 = (.error "Reservation not found", sA) := by
  refine ⟨?_, ?_, ?_⟩
  · exact (confirm_cancel_exclusivity sC 3 1).1
      ⟨1, "p1", "orderA", 10, RStatus.CONFIRMED, 1, 900001⟩ (by decide) rfl
  · exact (confirm_cancel_exclusivity sCancel 3 1).2.1
      ⟨1, "p1", "orderA", 10, RStatus.CANCELLED, 1, 900001⟩ (by decide) rfl
  · exact (confirm_cancel_exclusivity sA 3 99).2.2 (by decide)

/-- C7: initialization of an absent product creates the record with
`availableStock = totalStock = initialStock` and `reservedStock = 0` and
appends exactly one INITIAL movement of `initialStock`; on a present
product it fails with the already-exists error and returns the store
untouched (the put is conditional on absence in one atomic storage step,
mirroring the source's `attribute_not_exists` condition). -/
theorem initialize_effect (s : State) (now : Nat) (pid sku : String)
    (stock : Int) (loc : String) :
    (getInventory s pid = none →
      ∃ item s', initializeInventory s now pid sku stock loc = (.ok item, s') ∧
        item.availableStock = stock ∧ item.totalStock = stock ∧
        item.reservedStock = 0 ∧ getInventory s' pid = some item ∧
        s'.stockMovements = s.stockMovements ++
          [⟨s.nextId, pid, "INITIAL", stock, "System initialization", now⟩]) ∧
    (∀ inv, getInventory s pid = some inv →
      initializeInventory s now pid sku stock loc =
        (.error "Inventory already exists for this product", s)) := by
  constructor
  · intro h
    refine ⟨_, _, initializeInventory_absent h, rfl, rfl, rfl, ?_, rfl⟩
    rw [getInventory_append]
    have hg2 : getInventory
        ⟨s.inventory, s.reservations,
         s.stockMovements ++ [⟨s.nextId, pid, "INITIAL", stock,
           "System initialization", now⟩], s.nextId + 1⟩
        (InventoryRecord.productId
          ⟨pid, sku, stock, 0, stock, loc, 10, 20, 50, now, now, now⟩) = none := h
    rw [hg2]
    simp [Option.or]
  · intro inv h
    exact initializeInventory_present h

/-- Witness for C7: first initialization of p1 succeeds, repeating it on
`sA` fails and leaves `sA` as it was. -/
theorem initialize_effect_witness :
    (∃ item s', initializeInventory initialState 0 "p1" "SKU1" 50 "WH-A" =
        (.ok item, s') ∧
      item.availableStock = 50 ∧ item.totalStock = 50 ∧
      item.reservedStock = 0 ∧ getInventory s' "p1" = some item ∧
      s'.stockMovements = initialState.stockMovements ++
        [⟨0, "p1", "INITIAL", 50, "System initialization", 0⟩]) ∧
    initializeInventory sA 5 "p1" "SKU2" 7 "WH-B" =
      (.error "Inventory already exists for this product", sA) :=
  ⟨(initialize_effect initialState 0 "p1" "SKU1" 50 "WH-A").1 rfl,
   (initialize_effect sA 5 "p1" "SKU2" 7 "WH-B").2 itemA (by decide)⟩

/-- C10 (implicit): the reservation object returned by a successful
confirm, and by a cancel that actually cancels, is the row as read before
the status update: its status field still reads ACTIVE while the stored
row has been rewritten to CONFIRMED (respectively CANCELLED). -/
theorem resolve_returns_pre_update_row :
    (∀ s now rid (r : Reservation) res s', getReservation s rid = some r →
      confirmReservation s now rid = (.ok res, s') →
      res.reservation = r ∧ res.reservation.status = RStatus.ACTIVE ∧
      getReservation s' rid = some { r with status := RStatus.CONFIRMED }) ∧
    (∀ s now rid (r : Reservation) res s', getReservation s rid = some r →
      cancelReservation s now rid = (.ok res, s') → res.message = none →
      res.reservation = some r ∧ r.status = RStatus.ACTIVE ∧
      getReservation s' rid = some { r with status := RStatus.CANCELLED }) := by
  constructor
  · intro s now rid r res s' hR h
    by_cases hA : r.status = RStatus.ACTIVE
    case neg =>
      rw [confirmReservation_err_state hR hA] at h
      simp at h
    case pos =>
      cases hI : getInventory s r.productId with
      | none =>
        rw [confirmReservation_err_noinv hR hA hI] at h
        simp at h
      | some inv =>
        rw [confirmReservation_ok hR hA hI] at h
        injection h with h1 h2
        injection h1 with h1
        subst h1
        subst h2
        have hfR : ∀ x : Reservation,
            ((fun x => if x.reservationId == rid then
                { x with status := RStatus.CONFIRMED } else x) x).reservationId =
              x.reservationId := by
          intro x
          by_cases hc : x.reservationId == rid <;> simp [hc]
        refine ⟨rfl, hA, ?_⟩
        rw [getReservation_map_matched hR _ hfR]
        have hrr : (r.reservationId == rid) = true := by
          simp [(getReservation_mem hR).2]
        simp [hrr]
  · intro s now rid r res s' hR h hmsg
    by_cases hA : r.status = RStatus.ACTIVE
    case neg =>
      rw [cancelReservation_noop hR hA] at h
      injection h with h1 h2
      injection h1 with h1
      subst h1
      simp at hmsg
    case pos =>
      cases hI : getInventory s r.productId with
      | none =>
        rw [cancelReservation_err_noinv hR hA hI] at h
        simp at h
      | some inv =>
        rw [cancelReservation_ok hR hA hI] at h
        injection h with h1 h2
        injection h1 with h1
        subst h1
        subst h2
        have hfR : ∀ x : Reservation,
            ((fun x => if x.reservationId == rid then
                { x with status := RStatus.CANCELLED } else x) x).reservationId =
              x.reservationId := by
          intro x
          by_cases hc : x.reservationId == rid <;> simp [hc]
        refine ⟨rfl, hA, ?_⟩
        rw [getReservation_map_matched hR _ hfR]
        have hrr : (r.reservationId == rid) = true := by
          simp [(getReservation_mem hR).2]
        simp [hrr]

/-- Witness for C10: confirming and cancelling reservation 1 of sB both
return rows that still read ACTIVE while the stored rows are resolved. -/
theorem resolve_returns_pre_update_row_witness :
    ((ConfirmResult.mk true ⟨1, "p1", "orderA", 10, RStatus.ACTIVE, 1, 900001⟩).reservation
        = ⟨1, "p1", "orderA", 10, RStatus.ACTIVE, 1, 900001⟩ ∧
      (ConfirmResult.mk true ⟨1, "p1", "orderA", 10, RStatus.ACTIVE, 1, 900001⟩).reservation.status
        = RStatus.ACTIVE ∧
      getReservation (confirmReservation sB 2 1).2 1 =
        some ⟨1, "p1", "orderA", 10, RStatus.CONFIRMED, 1, 900001⟩) ∧
    ((CancelResult.mk true none
        (some ⟨1, "p1", "orderA", 10, RStatus.ACTIVE, 1, 900001⟩)).reservation
        = some ⟨1, "p1", "orderA", 10, RStatus.ACTIVE, 1, 900001⟩ ∧
      (⟨1, "p1", "orderA", 10, RStatus.ACTIVE, 1, 900001⟩ : Reservation).status
        = RStatus.ACTIVE ∧
      getReservation (cancelReservation sB 2 1).2 1 =
        some ⟨1, "p1", "orderA", 10, RStatus.CANCELLED, 1, 900001⟩) := by
  constructor
  · exact resolve_returns_pre_update_row.1 sB 2 1
      ⟨1, "p1", "orderA", 10, RStatus.ACTIVE, 1, 900001⟩
      (ConfirmResult.mk true ⟨1, "p1", "orderA", 10, RStatus.ACTIVE, 1, 900001⟩)
      (confirmReservation sB 2 1).2 (by decide) rfl
  · exact resolve_returns_pre_update_row.2 sB 2 1
      ⟨1, "p1", "orderA", 10, RStatus.ACTIVE, 1, 900001⟩
      (CancelResult.mk true none
        (some ⟨1, "p1", "orderA", 10, RStatus.ACTIVE, 1, 900001⟩))
      (cancelReservation sB 2 1).2 (by decide) rfl rfl

/-- C8: expiry correctness of the reclaim sweep. (a) Every ACTIVE
reservation already expired at `now` whose product has a record is
CANCELLED by the sweep — with no assumption about the other reservations,
so a failing cancellation (a reservation whose product has no record)
does not stop the sweep from reclaiming the rest. (b) When every
reservation's product has a record (as in every reachable store): the
reported count equals the number of expired ACTIVE reservations, which
equals the number of reservations newly CANCELLED; each product gets the
reclaimed quantity back into `availableStock` out of `reservedStock` with
`totalStock` untouched; and a second sweep at the same instant reclaims
nothing and leaves the store as it was, so no reservation is reclaimed
twice. -/
theorem cleanup_expired_correct (s : State) (now : Nat)
    (hUP : (s.inventory.map (fun x => x.productId)).Nodup)
    (hUR : (s.reservations.map (fun x => x.reservationId)).Nodup) :
    (∀ r ∈ s.reservations, r.status = RStatus.ACTIVE → r.expiresAt < now →
      (getInventory s r.productId).isSome = true →
      getReservation (cleanupExpiredReservations s now).2 r.reservationId =
        some { r with status := RStatus.CANCELLED }) ∧
    ((∀ r ∈ s.reservations, (getInventory s r.productId).isSome = true) →
      (cleanupExpiredReservations s now).1 = (expiredActive s now).length ∧
      ((cleanupExpiredReservations s now).2.reservations.filter
          (fun x => x.status == RStatus.CANCELLED)).length =
        (s.reservations.filter
          (fun x => x.status == RStatus.CANCELLED)).length +
          (cleanupExpiredReservations s now).1 ∧
      (∀ v ∈ s.inventory,
        (getInventory (cleanupExpiredReservations s now).2 v.productId).map
            (fun w => w.availableStock) =
          some (v.availableStock + sumFor (expiredActive s now) v.productId) ∧
        (getInventory (cleanupExpiredReservations s now).2 v.productId).map
            (fun w => w.reservedStock) =
          some (v.reservedStock - sumFor (expiredActive s now) v.productId) ∧
        (getInventory (cleanupExpiredReservations s now).2 v.productId).map
            (fun w => w.totalStock) = some v.totalStock) ∧
      (cleanupExpiredReservations
        (cleanupExpiredReservations s now).2 now).1 = 0 ∧
      (cleanupExpiredReservations
        (cleanupExpiredReservations s now).2 now).2 =
        (cleanupExpiredReservations s now).2) := by
  have hsub : ((expiredActive s now).map (fun x => x.reservationId)).Sublist
      (s.reservations.map (fun x => x.reservationId)) :=
    List.Sublist.map _ (List.filter_sublist _)
  have hLnd : ((expiredActive s now).map (fun x => x.reservationId)).Nodup :=
    List.Nodup.sublist hsub hUR
  have hmem0 : ∀ r ∈ expiredActive s now,
      getReservation s r.reservationId = some r ∧
      r.status = RStatus.ACTIVE := by
    intro r hr
    have hmem := List.mem_filter.mp hr
    have hA : r.status = RStatus.ACTIVE := by
      have h2 := hmem.2
      simp only [Bool.and_eq_true, beq_iff_eq] at h2
      exact h2.1
    exact ⟨getReservation_of_mem hUR hmem.1, hA⟩
  have hgpres : ∀ x : Reservation,
      ((fun x => if (expiredActive s now).any
            (fun rr => rr.reservationId == x.reservationId) &&
            (getInventory s x.productId).isSome then
          { x with status := RStatus.CANCELLED } else x) x).reservationId =
        x.reservationId := by
    intro x
    by_cases hc : ((expiredActive s now).any
        (fun rr => rr.reservationId == x.reservationId) &&
        (getInventory s x.productId).isSome) = true <;> simp [hc]
  have hgIpres : ∀ x : InventoryRecord,
      ((fun v => if (expiredActive s now).any
            (fun rr => rr.productId == v.productId) then
          { v with
              availableStock :=
                v.availableStock + sumFor (expiredActive s now) v.productId,
              reservedStock :=
                v.reservedStock - sumFor (expiredActive s now) v.productId,
              updatedAt := now }
        else v) x).productId = x.productId := by
    intro x
    by_cases hc : ((expiredActive s now).any
        (fun rr => rr.productId == x.productId)) = true <;> simp [hc]
  have hloop : (cleanupExpiredReservations s now).2 =
      markCancelled s (expiredActive s now) now := by
    rw [cleanup_def]
    exact cleanup_loop_spec now (expiredActive s now) s hUP hUR hLnd hmem0
  constructor
  · intro r hr hA hE hS
    rw [hloop]
    unfold markCancelled
    rw [getReservation_map_matched (getReservation_of_mem hUR hr) _ hgpres]
    have hrm : r ∈ expiredActive s now :=
      List.mem_filter.mpr ⟨hr, by simp [hA, hE]⟩
    have hany : (expiredActive s now).any
        (fun rr => rr.reservationId == r.reservationId) = true := by
      rw [List.any_eq_true]
      exact ⟨r, hrm, by simp⟩
    simp [hany, hS]
  · intro hall
    refine ⟨rfl, ?_, ?_, ?_, ?_⟩
    · -- newly cancelled count
      rw [hloop]
      unfold markCancelled
      dsimp only
      rw [← List.countP_eq_length_filter, ← List.countP_eq_length_filter,
        List.countP_map]
      have hpoint : ∀ x ∈ s.reservations,
          ((fun y => y.status == RStatus.CANCELLED) ∘
            (fun x => if (expiredActive s now).any
                (fun rr => rr.reservationId == x.reservationId) &&
                (getInventory s x.productId).isSome then
              { x with status := RStatus.CANCELLED } else x)) x = true ↔
          ((fun y => y.status == RStatus.CANCELLED) x ||
            (fun y => y.status == RStatus.ACTIVE &&
              decide (y.expiresAt < now)) x) = true := by
        intro x hx
        dsimp only [Function.comp]
        by_cases hc : ((expiredActive s now).any
            (fun rr => rr.reservationId == x.reservationId) &&
            (getInventory s x.productId).isSome) = true
        · rw [if_pos hc]
          have hxe : x ∈ expiredActive s now := by
            have hc1 := (Bool.and_eq_true _ _).mp hc
            obtain ⟨e, he, hbe⟩ := List.any_eq_true.mp hc1.1
            have hes : e ∈ s.reservations := (List.mem_filter.mp he).1
            obtain rfl : e = x := mem_eq_of_getReservation hUR hes
              (beq_iff_eq.mp hbe) (getReservation_of_mem hUR hx)
            exact he
          have hxp := (List.mem_filter.mp hxe).2
          simp [hxp]
        · rw [if_neg hc]
          constructor
          · intro hcx
            simp [hcx]
          · intro hor
            rcases Bool.or_eq_true_iff.mp hor with hcx | hex
            · exact hcx
            · exfalso
              apply hc
              have hxe : x ∈ expiredActive s now := List.mem_filter.mpr ⟨hx, hex⟩
              have hany : (expiredActive s now).any
                  (fun rr => rr.reservationId == x.reservationId) = true := by
                rw [List.any_eq_true]
                exact ⟨x, hxe, by simp⟩
              simp [hany, hall x hx]
      rw [List.countP_congr hpoint]
      rw [countP_or_disjoint _ _ s.reservations ?hdisj]
      case hdisj =>
        intro x hx hboth
        have h1 := hboth.1
        have h2 := hboth.2
        simp only [beq_iff_eq] at h1
        simp only [Bool.and_eq_true, beq_iff_eq] at h2
        rw [h1] at h2
        cases h2.1
      rw [cleanup_def]
      dsimp only
      rw [List.countP_eq_length_filter, List.countP_eq_length_filter]
      rfl
    · -- per-product counters
      intro v hv
      rw [hloop]
      unfold markCancelled
      rw [getInventory_map_matched (getInventory_of_mem hUP hv) _ hgIpres]
      by_cases hcond : ((expiredActive s now).any
          (fun rr => rr.productId == v.productId)) = true
      · rw [if_pos hcond]
        exact ⟨rfl, rfl, rfl⟩
      · rw [if_neg hcond]
        have h0 : sumFor (expiredActive s now) v.productId = 0 :=
          sumFor_eq_zero (by simpa using hcond)
        rw [h0]
        refine ⟨by simp, by simp, rfl⟩
    · -- second sweep count
      have hexp2 : expiredActive (cleanupExpiredReservations s now).2 now =
          [] := by
        unfold expiredActive
        rw [hloop]
        unfold markCancelled
        dsimp only
        rw [List.filter_eq_nil_iff]
        intro y hy
        rcases List.mem_map.mp hy with ⟨x, hx, rfl⟩
        by_cases hc : ((expiredActive s now).any
            (fun rr => rr.reservationId == x.reservationId) &&
            (getInventory s x.productId).isSome) = true
        · rw [if_pos hc]
          simp
        · rw [if_neg hc]
          intro hpe
          apply hc
          have hxe : x ∈ expiredActive s now :=
            List.mem_filter.mpr ⟨hx, hpe⟩
          have hany : (expiredActive s now).any
              (fun rr => rr.reservationId == x.reservationId) = true := by
            rw [List.any_eq_true]
            exact ⟨x, hxe, by simp⟩
          simp [hany, hall x hx]
      rw [cleanup_def]
      dsimp only
      rw [hexp2]
      rfl
    · have hexp2 : expiredActive (cleanupExpiredReservations s now).2 now =
          [] := by
        unfold expiredActive
        rw [hloop]
        unfold markCancelled
        dsimp only
        rw [List.filter_eq_nil_iff]
        intro y hy
        rcases List.mem_map.mp hy with ⟨x, hx, rfl⟩
        by_cases hc : ((expiredActive s now).any
            (fun rr => rr.reservationId == x.reservationId) &&
            (getInventory s x.productId).isSome) = true
        · rw [if_pos hc]
          simp
        · rw [if_neg hc]
          intro hpe
          apply hc
          have hxe : x ∈ expiredActive s now :=
            List.mem_filter.mpr ⟨hx, hpe⟩
          have hany : (expiredActive s now).any
              (fun rr => rr.reservationId == x.reservationId) = true := by
            rw [List.any_eq_true]
            exact ⟨x, hxe, by simp⟩
          simp [hany, hall x hx]
      conv_lhs => rw [cleanup_def]
      dsimp only
      rw [hexp2]
      rfl

/-- Witness for C8. At `sExp` (one reservation of 10 units, expired at
time 2) the sweep cancels it, reports one reclaimed reservation, and a
second sweep reclaims nothing. At `sFail` the first expired reservation's
product has no record, so its cancel throws, yet reservation 6 is still
reclaimed. -/
theorem cleanup_expired_correct_witness :
    getReservation (cleanupExpiredReservations sExp 2).2 1 =
      some ⟨1, "p1", "orderA", 10, RStatus.CANCELLED, 1, 1⟩ ∧
    (cleanupExpiredReservations sExp 2).1 = 1 ∧
    (cleanupExpiredReservations (cleanupExpiredReservations sExp 2).2 2).1 = 0 ∧
    getReservation (cleanupExpiredReservations sFail 9).2 6 =
      some ⟨6, "p1", "orderA", 10, RStatus.CANCELLED, 0, 1⟩ := by
  have h1 := cleanup_expired_correct sExp 2 (by decide) (by decide)
  have h2 := cleanup_expired_correct sFail 9 (by decide) (by decide)
  refine ⟨?_, ?_, ?_, ?_⟩
  · exact h1.1 ⟨1, "p1", "orderA", 10, RStatus.ACTIVE, 1, 1⟩ (by decide) rfl
      (by decide) (by decide)
  · exact ((h1.2 (by decide)).1).trans (by decide)
  · exact (h1.2 (by decide)).2.2.2.1
  · exact h2.1 ⟨6, "p1", "orderA", 10, RStatus.ACTIVE, 0, 1⟩ (by decide) rfl
      (by decide) (by decide)

/-- C9: audit-trail reconstruction. In every reachable store the sum of
the quantities of the movements logged for a product equals that
product's current `totalStock`; and per operation: `initializeInventory`
and `updateStock` and `confirmReservation` each append exactly one
movement whose quantity is their change to `totalStock`, while
`reserveStock` and `cancelReservation` append none and change no
product's `totalStock`. -/
theorem movement_audit_trail :
    (∀ s : State, Reachable s → ∀ v ∈ s.inventory,
      movementSum s.stockMovements v.productId = v.totalStock) ∧
    (∀ s now pid sku stock loc item s',
      initializeInventory s now pid sku stock loc = (.ok item, s') →
      s'.stockMovements = s.stockMovements ++
        [⟨s.nextId, pid, "INITIAL", stock, "System initialization", now⟩] ∧
      item.totalStock = stock) ∧
    (∀ s now pid q ty ref rec s' inv, getInventory s pid = some inv →
      updateStock s now pid q ty ref = (.ok rec, s') →
      s'.stockMovements = s.stockMovements ++
        [⟨s.nextId, pid, ty, q, ref, now⟩] ∧
      rec.totalStock = inv.totalStock + q) ∧
    (∀ s now rid (r : Reservation) inv res s', getReservation s rid = some r →
      getInventory s r.productId = some inv →
      confirmReservation s now rid = (.ok res, s') →
      s'.stockMovements = s.stockMovements ++
        [⟨s.nextId, r.productId, "SALE", -r.quantity,
          "Order: " ++ r.orderId, now⟩] ∧
      (getInventory s' r.productId).map (fun w => w.totalStock) =
        some (inv.totalStock - r.quantity)) ∧
    (∀ s now pid q oid m (r : Reservation) s',
      reserveStock s now pid q oid m = (.ok r, s') →
      s'.stockMovements = s.stockMovements ∧
      ∀ pid', (getInventory s' pid').map (fun w => w.totalStock) =
        (getInventory s pid').map (fun w => w.totalStock)) ∧
    (∀ s now rid res s', cancelReservation s now rid = (.ok res, s') →
      s'.stockMovements = s.stockMovements ∧
      ∀ pid', (getInventory s' pid').map (fun w => w.totalStock) =
        (getInventory s pid').map (fun w => w.totalStock)) := by
  refine ⟨?_, ?_, ?_, ?_, ?_, ?_⟩
  · intro s hreach v hv
    exact (reachable_WF hreach).moveSum v hv
  · intro s now pid sku stock loc item s' h
    cases hg : getInventory s pid with
    | some inv =>
      rw [initializeInventory_present hg] at h
      simp at h
    | none =>
      rw [initializeInventory_absent hg] at h
      injection h with h1 h2
      injection h1 with h1
      subst h2
      subst h1
      exact ⟨rfl, rfl⟩
  · intro s now pid q ty ref rec s' inv hI h
    by_cases hq : inv.availableStock + q < 0
    · rw [updateStock_err_neg hI hq] at h
      simp at h
    · rw [updateStock_ok hI hq] at h
      injection h with h1 h2
      injection h1 with h1
      subst h2
      subst h1
      exact ⟨rfl, rfl⟩
  · intro s now rid r inv res s' hR hI h
    by_cases hA : r.status = RStatus.ACTIVE
    case neg =>
      rw [confirmReservation_err_state hR hA] at h
      simp at h
    case pos =>
      rw [confirmReservation_ok hR hA hI] at h
      injection h with h1 h2
      subst h2
      refine ⟨rfl, ?_⟩
      have hfI : ∀ x : InventoryRecord,
          ((fun x => if x.productId == r.productId then
              { x with reservedStock := inv.reservedStock - r.quantity,
                       totalStock := inv.totalStock - r.quantity,
                       updatedAt := now }
            else x) x).productId = x.productId := by
        intro x
        by_cases hc : x.productId == r.productId <;> simp [hc]
      rw [getInventory_map_matched hI _ hfI]
      have hpp : (inv.productId == r.productId) = true := by
        simp [(getInventory_mem hI).2]
      simp [hpp]
  · intro s now pid q oid m r s' h
    cases hg : getInventory s pid with
    | none =>
      rw [reserveStock_err_absent hg] at h
      simp at h
    | some inv =>
      by_cases hq : inv.availableStock < q
      · rw [reserveStock_err_short hg hq] at h
        simp at h
      · rw [reserveStock_ok hg hq] at h
        injection h with h1 h2
        subst h2
        refine ⟨rfl, ?_⟩
        intro pid'
        have hfI : ∀ x : InventoryRecord,
            ((fun x => if x.productId == pid then
                { x with availableStock := inv.availableStock - q,
                         reservedStock := inv.reservedStock + q,
                         updatedAt := now }
              else x) x).productId = x.productId := by
          intro x
          by_cases hc : x.productId == pid <;> simp [hc]
        rw [getInventory_def, getInventory_def]
        dsimp only
        rw [find?_pid_map _ _ hfI]
        cases s.inventory.find? (fun x => x.productId == pid') with
        | none => rfl
        | some w =>
          by_cases hc : (w.productId == pid) = true
          · have hce := beq_iff_eq.mp hc
            simp [hc, hce]
          · have hne : w.productId ≠ pid := by simpa using hc
            simp [hne]
  · intro s now rid res s' h
    cases hR : getReservation s rid with
    | none =>
      rw [cancelReservation_err_absent hR] at h
      simp at h
    | some r =>
      by_cases hA : r.status = RStatus.ACTIVE
      case neg =>
        rw [cancelReservation_noop hR hA] at h
        injection h with h1 h2
        subst h2
        exact ⟨rfl, fun pid' => rfl⟩
      case pos =>
        cases hI : getInventory s r.productId with
        | none =>
          rw [cancelReservation_err_noinv hR hA hI] at h
          simp at h
        | some inv =>
          rw [cancelReservation_ok hR hA hI] at h
          injection h with h1 h2
          subst h2
          refine ⟨rfl, ?_⟩
          intro pid'
          have hfI : ∀ x : InventoryRecord,
              ((fun x => if x.productId == r.productId then
                  { x with availableStock := inv.availableStock + r.quantity,
                           reservedStock := inv.reservedStock - r.quantity,
                           updatedAt := now }
                else x) x).productId = x.productId := by
            intro x
            by_cases hc : x.productId == r.productId <;> simp [hc]
          rw [getInventory_def, getInventory_def]
          dsimp only
          rw [find?_pid_map _ _ hfI]
          cases s.inventory.find? (fun x => x.productId == pid') with
          | none => rfl
          | some w =>
            by_cases hc : (w.productId == r.productId) = true
            · have hce := beq_iff_eq.mp hc
              simp [hc, hce]
            · have hne : w.productId ≠ r.productId := by simpa using hc
              simp [hne]

/-- Witness for C9: each conjunct at a concrete call — the reachable store
`sA`, a fresh initialization, a restock of 5, the confirm and cancel of
reservation 1 of sB, and a reserve of 10 from sA. -/
theorem movement_audit_trail_witness :
    movementSum sA.stockMovements "p1" = itemA.totalStock ∧
    (initializeInventory initialState 0 "p1" "SKU1" 50 "WH-A").2.stockMovements =
      initialState.stockMovements ++
        [⟨0, "p1", "INITIAL", 50, "System initialization", 0⟩] ∧
    (updateStock sA 3 "p1" 5 "RESTOCK" "po-7").2.stockMovements =
      sA.stockMovements ++ [⟨1, "p1", "RESTOCK", 5, "po-7", 3⟩] ∧
    (confirmReservation sB 2 1).2.stockMovements =
      sB.stockMovements ++ [⟨2, "p1", "SALE", -10, "Order: orderA", 2⟩] ∧
    (reserveStock sA 1 "p1" 10 "orderA" 15).2.stockMovements =
      sA.stockMovements ∧
    (getInventory (reserveStock sA 1 "p1" 10 "orderA" 15).2 "p1").map
      (fun w => w.totalStock) =
      (getInventory sA "p1").map (fun w => w.totalStock) ∧
    (cancelReservation sB 2 1).2.stockMovements = sB.stockMovements := by
  have h := movement_audit_trail
  have hreach : Reachable sA :=
    Relation.ReflTransGen.single
      (Step.init initialState 0 "p1" "SKU1" 50 "WH-A" itemA sA (by norm_num) rfl)
  refine ⟨?_, ?_, ?_, ?_, ?_, ?_, ?_⟩
  · have hx := h.1 sA hreach itemA (by decide)
    simpa using hx
  · exact (h.2.1 initialState 0 "p1" "SKU1" 50 "WH-A"
      ⟨"p1", "SKU1", 50, 0, 50, "WH-A", 10, 20, 50, 0, 0, 0⟩
      (initializeInventory initialState 0 "p1" "SKU1" 50 "WH-A").2 rfl).1
  · exact (h.2.2.1 sA 3 "p1" 5 "RESTOCK" "po-7"
      ⟨"p1", "SKU1", 55, 0, 55, "WH-A", 10, 20, 50, 0, 0, 3⟩
      (updateStock sA 3 "p1" 5 "RESTOCK" "po-7").2 itemA (by decide) rfl).1
  · exact (h.2.2.2.1 sB 2 1 ⟨1, "p1", "orderA", 10, RStatus.ACTIVE, 1, 900001⟩
      ⟨"p1", "SKU1", 40, 10, 50, "WH-A", 10, 20, 50, 0, 0, 1⟩
      { success := true,
        reservation := ⟨1, "p1", "orderA", 10, RStatus.ACTIVE, 1, 900001⟩ }
      (confirmReservation sB 2 1).2 (by decide) (by decide) rfl).1
  · exact (h.2.2.2.2.1 sA 1 "p1" 10 "orderA" 15
      ⟨1, "p1", "orderA", 10, RStatus.ACTIVE, 1, 900001⟩
      (reserveStock sA 1 "p1" 10 "orderA" 15).2 rfl).1
  · exact (h.2.2.2.2.1 sA 1 "p1" 10 "orderA" 15
      ⟨1, "p1", "orderA", 10, RStatus.ACTIVE, 1, 900001⟩
      (reserveStock sA 1 "p1" 10 "orderA" 15).2 rfl).2 "p1"
  · exact (h.2.2.2.2.2 sB 2 1
      { success := true, message := none,
        reservation := some ⟨1, "p1", "orderA", 10, RStatus.ACTIVE, 1, 900001⟩ }
      (cancelReservation sB 2 1).2 rfl).1

end Inventory
